import Mathlib

/-!
# EyeDraw doodles: derivation resolvers and default placement

A shallow embedding of four doodle classes of the EyeDraw library
(`AngleGradeEast`, `ConjunctivalFlap`, `SectorPRP`,
`RetinalVeinOcclusionPostPole`) and theorems about them.

Conventions of the embedding:

* A JavaScript number is a rational number (`ℚ`).  Every literal and constant of
  the embedded code is an integer or a rational multiple of `Math.PI`, negation
  and comparison of finite doubles are exact, and the remaining arithmetic is taken
  to be exact.  `NaN` and the infinities are not represented.
* `Math.PI` is a parameter `pi : ℚ` of the functions that use it; theorems assume
  about it only what they need (`0 < pi`, or `3.14 < pi < 3.15` where the number of
  passes of a loop depends on it); the double `Math.PI` itself satisfies both.
* A dynamically typed JavaScript value is a `Value`: a number or a string.
* The associative array returned by `dependentParameterValues` is the list of
  its key/value pairs in assignment order.
* `switch` compares with strict equality, so a `case` on a string literal is
  taken only by a string value equal to it.
* A `for` loop is a recursive function whose first numeric argument bounds the
  number of passes; it returns `none` when the bound is used up before the loop
  condition fails, and `some` of what the loop did otherwise.
* A number that may be `NaN` (the result of arithmetic on an array element read
  past the end) is an `Option ℚ`, `none` standing for `NaN`; every comparison
  with `NaN` is false.
-/

namespace ED

/-- A dynamically typed JavaScript value: a number or a string. -/
inductive Value where
  | num (x : ℚ)
  | str (s : String)
  deriving DecidableEq, Repr

/-- The associative array built by `dependentParameterValues`
(`returnArray[key] = value`), as its key/value pairs. -/
abbrev ReturnArray := List (String × Value)

/-- A numeric validation range set by `range.setMinAndMax(min, max)`. -/
structure Range where
  min : ℚ
  max : ℚ
  deriving DecidableEq, Repr

/-- Membership in a validation range (both ends inclusive). -/
def Range.includes (r : Range) (x : ℚ) : Prop := r.min ≤ x ∧ x ≤ r.max

instance (r : Range) (x : ℚ) : Decidable (r.includes x) := by
  unfold Range.includes; infer_instance

/-! ## AngleGradeEast (`src/ED/Doodles/Oph/AngleGradeEast.js`) -/

/-- The fields of an `AngleGradeEast` doodle read by the embedded methods: the
private radii set by the constructor and the simple parameter `apexY`. -/
structure AngleGradeEast where
  rsl : ℚ
  rsli : ℚ
  rtmo : ℚ
  rtmi : ℚ
  rcbo : ℚ
  riro : ℚ
  riri : ℚ
  rpu : ℚ
  apexY : ℚ
  deriving DecidableEq, Repr

namespace AngleGradeEast

/-- The doodle as the constructor leaves its private parameters
(lines 30-37), with `apexY` at the given current value. -/
def withApexY (apexY : ℚ) : AngleGradeEast :=
  { rsl := 480, rsli := 470, rtmo := 404, rtmi := 304, rcbo := 306, riro := 270,
    riri := 230, rpu := 100, apexY := apexY }

/-- The range declared for `apexY` in `setPropertyDefaults` (line 87):
`setMinAndMax(-this.rsli, -this.riri)`. -/
def apexYRange (self : AngleGradeEast) : Range :=
  { min := -self.rsli, max := -self.riri }

/-- The legal values of the derived parameter `grade` (line 93). -/
def gradeList : List String := ["4", "3", "2", "1", "0"]

/-- The legal values of the derived parameter `seen` (line 99). -/
def seenList : List String := ["Yes", "No"]

/-- Case `'apexY'` of `dependentParameterValues` (lines 132-141) for a numeric
value: four successive overwrites of `returnValue`, then the `seen` flag. -/
def dependentOfApexY (self : AngleGradeEast) (v : ℚ) : ReturnArray :=
  let returnValue := "4"
  let returnValue := if -v ≥ self.riro then "3" else returnValue
  let returnValue := if -v ≥ self.rcbo then "2" else returnValue
  let returnValue := if -v ≥ self.rtmo then "1" else returnValue
  let returnValue := if -v ≥ self.rsli then "0" else returnValue
  [("grade", Value.str returnValue),
   ("seen", Value.str (if -v ≥ self.rsli then "No" else "Yes"))]

/-- Case `'grade'` of `dependentParameterValues` (lines 143-183): the inner
`switch (_value)`; `returnValue` starts as the empty string and keeps it when no
case matches. -/
def dependentOfGrade (self : AngleGradeEast) (_value : Value) : ReturnArray :=
  let returnValue : Value :=
    if _value = Value.str "0" then
      (if -self.apexY ≥ self.rsli then Value.num self.apexY else Value.num (-self.rsli))
    else if _value = Value.str "1" then
      (if -self.apexY ≥ self.rtmo ∧ -self.apexY < self.rsli then Value.num self.apexY
       else Value.num (-self.rtmo))
    else if _value = Value.str "2" then
      (if -self.apexY ≥ self.rcbo ∧ -self.apexY < self.rtmo then Value.num self.apexY
       else Value.num (-306))
    else if _value = Value.str "3" then
      (if -self.apexY ≥ self.riro ∧ -self.apexY < self.rcbo then Value.num self.apexY
       else Value.num (-270))
    else if _value = Value.str "4" then
      (if -self.apexY ≥ self.riri ∧ -self.apexY < self.riro then Value.num self.apexY
       else Value.num (-self.riri))
    else Value.str ""
  [("apexY", returnValue)]

/-- Case `'seen'` of `dependentParameterValues` (lines 185-199). -/
def dependentOfSeen (self : AngleGradeEast) (_value : Value) : ReturnArray :=
  let returnValue : Value :=
    if _value = Value.str "No" then
      (if -self.apexY ≥ self.rsli then Value.num self.apexY else Value.num (-self.rsli))
    else if _value = Value.str "Yes" then
      (if -self.apexY < self.rsli then Value.num self.apexY else Value.num (-self.riri))
    else Value.str ""
  [("apexY", returnValue)]

/-- `ED.AngleGradeEast.prototype.dependentParameterValues` (lines 128-203).
The result is `none` only where the embedding does not model the code: a string
passed as the value of `apexY`, which JavaScript would coerce to a number. -/
def dependentParameterValues (self : AngleGradeEast) (_parameter : String)
    (_value : Value) : Option ReturnArray :=
  if _parameter = "apexY" then
    match _value with
    | Value.num v => some (dependentOfApexY self v)
    | Value.str _ => none
  else if _parameter = "grade" then some (dependentOfGrade self _value)
  else if _parameter = "seen" then some (dependentOfSeen self _value)
  else some []

end AngleGradeEast

/-! ## ConjunctivalFlap (`src/ED/Doodles/Oph/ConjunctivalFlap.js`) -/

/-- The field of a `ConjunctivalFlap` doodle read by the embedded methods. -/
structure ConjunctivalFlap where
  apexY : ℚ
  deriving DecidableEq, Repr

namespace ConjunctivalFlap

/-- A flap whose `apexY` has the given current value. -/
def withApexY (apexY : ℚ) : ConjunctivalFlap := { apexY := apexY }

/-- The range declared for `apexY` in `setPropertyDefaults` (line 66):
`setMinAndMax(-640, -100)`. -/
def apexYRange (_self : ConjunctivalFlap) : Range := { min := -640, max := -100 }

/-- The legal values of the derived parameter `method` (line 74). -/
def methodList : List String := ["Fornix-based", "Limbus-based"]

/-- Case `'apexY'` of `dependentParameterValues` (lines 99-102) for a numeric
value. -/
def dependentOfApexY (_self : ConjunctivalFlap) (v : ℚ) : ReturnArray :=
  if v < -380 then [("method", Value.str "Fornix-based")]
  else [("method", Value.str "Limbus-based")]

/-- Case `'method'` of `dependentParameterValues` (lines 104-113): nothing is
assigned when no inner case matches. -/
def dependentOfMethod (_self : ConjunctivalFlap) (_value : Value) : ReturnArray :=
  if _value = Value.str "Fornix-based" then [("apexY", Value.num (-660))]
  else if _value = Value.str "Limbus-based" then [("apexY", Value.num (-100))]
  else []

/-- `ED.ConjunctivalFlap.prototype.dependentParameterValues` (lines 95-117).
The result is `none` only where the embedding does not model the code: a string
passed as the value of `apexY`, which JavaScript would coerce to a number. -/
def dependentParameterValues (self : ConjunctivalFlap) (_parameter : String)
    (_value : Value) : Option ReturnArray :=
  if _parameter = "apexY" then
    match _value with
    | Value.num v => some (dependentOfApexY self v)
    | Value.str _ => none
  else if _parameter = "method" then some (dependentOfMethod self _value)
  else some []

end ConjunctivalFlap

/-! ## SectorPRP (`src/ED/Doodles/Oph/SectorPRP.js`) -/

/-- The eye of the drawing (`this.drawing.eye`, one of `ED.eye.Right` and
`ED.eye.Left`). -/
inductive Eye where
  | Right
  | Left
  deriving DecidableEq, Repr

/-- The simple parameters of a `SectorPRP` doodle that `setParameterDefaults`
reads from the last sibling and writes to the new doodle. -/
structure SectorPRP where
  arc : ℚ
  rotation : ℚ
  deriving DecidableEq, Repr

namespace SectorPRP

/-- The range declared for `arc` in `setPropertyDefaults` (line 58):
`setMinAndMax(Math.PI / 6, Math.PI * 2)`. -/
def arcRange (pi : ℚ) : Range := { min := pi / 6, max := pi * 2 }

/-- `ED.SectorPRP.prototype.setParameterDefaults` (lines 66-75).  `doodle` is
the result of `this.drawing.lastDoodleOfClass(this.className)`: the last
sibling of the same class, or nothing. -/
def setParameterDefaults (pi : ℚ) (eye : Eye) (doodle : Option SectorPRP) : SectorPRP :=
  let arc := 55 * pi / 180
  match doodle with
  | some d =>
    { arc := arc
      rotation := d.rotation + (if eye = Eye.Right then -1 else 1) * (d.arc / 2 + arc / 2 + pi / 12) }
  | none =>
    { arc := arc
      rotation := (if eye = Eye.Right then -1 else 1) * arc / 2 }

end SectorPRP

/-! ## The motif loops of `draw` (SectorPRP.js lines 134-150, RetinalVeinOcclusionPostPole.js lines 133-149)

The two `draw` methods contain the same pair of nested loops; they differ in the
radii, in the table `count` and in the name of the motif drawn. -/

/-- One pass of the radius loop: the band index `i`, the radius `r`, and the
angles `a` passed to `setWithPolars(r, a)` in that pass, in order. -/
structure Band where
  i : ℕ
  r : ℚ
  spots : List (Option ℚ)
  deriving DecidableEq, Repr

/-- The inner loop
`for (var a = -Math.PI / 2 - arcStart; a < this.arc - Math.PI / 2 - arcStart; a += sd / r)`
with body `a = -Math.PI / 2 - arcStart + j * 2 * Math.PI / count[i]; ...; j++`,
from the loop test onwards, in the state `a`, `j`.  `c` is `count[i]`, absent when
`i` is past the end of the table.  The result lists the angles of the motifs
drawn. -/
def angleLoop (pi arc arcStart sd r : ℚ) (c : Option ℚ) :
    ℕ → Option ℚ → ℕ → Option (List (Option ℚ))
  | 0, _, _ => none
  | fuel + 1, a, j =>
    match a with
    | none => some []
    | some x =>
      if x < arc - pi / 2 - arcStart then
        let a' : Option ℚ := c.map (fun c => -pi / 2 - arcStart + j * 2 * pi / c)
        (angleLoop pi arc arcStart sd r c fuel (a'.map (fun y => y + sd / r)) (j + 1)).map
          (fun rest => a' :: rest)
      else some []

/-- The outer loop `for (var r = ro - si; r > ri; r -= sd)` with body
`var j = 0; <inner loop>; i++`, from the loop test onwards, in the state `r`, `i`.
`fuelA` bounds the passes of each inner loop. -/
def radiusLoop (pi arc arcStart ri sd : ℚ) (count : List ℚ) (fuelA : ℕ) :
    ℕ → ℚ → ℕ → Option (List Band)
  | 0, _, _ => none
  | fuel + 1, r, i =>
    if r > ri then
      match angleLoop pi arc arcStart sd r count[i]? fuelA (some (-pi / 2 - arcStart)) 0 with
      | none => none
      | some spots =>
        (radiusLoop pi arc arcStart ri sd count fuelA fuel (r - sd) (i + 1)).map
          (fun rest => { i := i, r := r, spots := spots } :: rest)
    else some []

/-- A call `ctx.arc(x, y, radius, startAngle, endAngle, anticlockwise)`. -/
structure ArcCall where
  x : ℚ
  y : ℚ
  radius : ℚ
  startAngle : ℚ
  endAngle : ℚ
  anticlockwise : Bool
  deriving DecidableEq, Repr

/-- The array `count` of `ED.SectorPRP.prototype.draw` (line 132). -/
def SectorPRP.count : List ℚ := [47, 41, 35, 28, 22, 15]

/-- The non-boundary drawing of `ED.SectorPRP.prototype.draw` (lines 89-97 and
126-151, in draw mode): the bands visited and the motifs drawn in each. -/
def SectorPRP.drawSpots (pi : ℚ) (self : SectorPRP) (fuel : ℕ) : Option (List Band) :=
  let ro : ℚ := 952 / 2
  let ri : ℚ := 100
  let theta := self.arc / 2
  let arcStart := -pi / 2 + theta
  let si : ℚ := 30
  let sd : ℚ := 30 + si
  radiusLoop pi self.arc arcStart ri sd SectorPRP.count fuel fuel (ro - si) 0

/-- The `arc` calls of the boundary path of `ED.AngleGradeEast.prototype.draw`
(lines 217-228); `this.arc` is the invariant value `90 * Math.PI / 180` set by the
constructor (line 56). -/
def AngleGradeEast.boundaryArcs (pi : ℚ) (self : AngleGradeEast) : List ArcCall :=
  let arc := 90 * pi / 180
  let theta := arc / 2
  let arcStart := -pi / 2 + theta
  let arcEnd := -pi / 2 - theta
  [{ x := 0, y := 0, radius := -self.apexY, startAngle := arcStart, endAngle := arcEnd,
     anticlockwise := true },
   { x := 0, y := 0, radius := self.rpu, startAngle := arcEnd, endAngle := arcStart,
     anticlockwise := false }]

/-- `ED.ConjunctivalFlap.prototype.description` (lines 189-191). -/
def ConjunctivalFlap.description (self : ConjunctivalFlap) : String :=
  (if self.apexY < -280 then "Fornix based " else "Limbus based ") ++ "flap"

/-! ## RetinalVeinOcclusionPostPole (`src/ED/Doodles/Oph/RetinalVeinOcclusionPostPole.js`) -/

/-- The simple parameters of a `RetinalVeinOcclusionPostPole` doodle read by the
embedded methods. -/
structure RetinalVeinOcclusionPostPole where
  apexY : ℚ
  arc : ℚ
  rotation : ℚ
  deriving DecidableEq, Repr

namespace RetinalVeinOcclusionPostPole

/-- The range declared for `arc` in `setPropertyDefaults` (line 60):
`setMinAndMax(Math.PI / 6, Math.PI * 2)`. -/
def arcRange (pi : ℚ) : Range := { min := pi / 6, max := pi * 2 }

/-- The range declared for `apexY` in `setPropertyDefaults` (line 62):
`setMinAndMax(-200, -30)`. -/
def apexYRange : Range := { min := -200, max := -30 }

/-- The array `count` of `draw` (line 131). -/
def count : List ℚ := [26, 24, 22, 18, 14, 10]

/-- The `arc` calls of the boundary path of `draw` (lines 87-113). -/
def boundaryArcs (pi : ℚ) (self : RetinalVeinOcclusionPostPole) : List ArcCall :=
  let ro : ℚ := 420
  let ri := -self.apexY
  let theta := self.arc / 2
  let arcStart := -pi / 2 + theta
  let arcEnd := -pi / 2 - theta
  [{ x := 0, y := 0, radius := ro, startAngle := arcStart, endAngle := arcEnd,
     anticlockwise := true },
   { x := 0, y := 0, radius := ri, startAngle := arcEnd, endAngle := arcStart,
     anticlockwise := false }]

/-- The non-boundary drawing of `draw` (lines 87-95 and 124-150, in draw mode): the
bands visited and the motifs drawn in each. -/
def drawSpots (pi : ℚ) (self : RetinalVeinOcclusionPostPole) (fuel : ℕ) : Option (List Band) :=
  let ro : ℚ := 420
  let ri := -self.apexY
  let theta := self.arc / 2
  let arcStart := -pi / 2 + theta
  let si : ℚ := 30
  let sd : ℚ := 30 + si
  radiusLoop pi self.arc arcStart ri sd count fuel fuel (ro - si) 0

/-- `ED.RetinalVeinOcclusionPostPole.prototype.type` (lines 240-245); the
literals `1.5` and `0.8` are the rationals `3/2` and `4/5`. -/
def type (pi : ℚ) (self : RetinalVeinOcclusionPostPole) : String :=
  if self.arc > 3 / 2 * pi then "central"
  else if self.arc > 4 / 5 * pi then "hemispheric"
  else "branch"

/-- `ED.RetinalVeinOcclusionPostPole.prototype.snomedCode` (lines 219-233); the
result is `none` when no case of the `switch` returns (`undefined`). -/
def snomedCode (pi : ℚ) (self : RetinalVeinOcclusionPostPole) : Option ℕ :=
  let type := self.type pi
  if type = "branch" then some 24596005
  else if type = "hemispheric" then some 232043000
  else if type = "central" then some 68478007
  else none

end RetinalVeinOcclusionPostPole

/-! ## Notions used to state the properties -/

/-- The value stored under a key of a returned array, if the call is modelled and
the key was assigned (`returnArray[key]`). -/
def lookupResult (r : Option ReturnArray) (key : String) : Option Value :=
  r.bind (fun l => l.lookup key)

/-- The forward mapping of `AngleGradeEast`: the `grade` resolved from a value of
`apexY`. -/
def AngleGradeEast.gradeOf (v : ℚ) : Option Value :=
  lookupResult ((AngleGradeEast.withApexY v).dependentParameterValues "apexY" (Value.num v)) "grade"

/-- The forward mapping of `AngleGradeEast`: the `seen` flag resolved from a value
of `apexY`. -/
def AngleGradeEast.seenOf (v : ℚ) : Option Value :=
  lookupResult ((AngleGradeEast.withApexY v).dependentParameterValues "apexY" (Value.num v)) "seen"

/-- The resolver of `AngleGradeEast` for a derived parameter (`grade` or `seen`):
the `apexY` returned for the requested derived value when the current `apexY` is
`current`. -/
def AngleGradeEast.apexYFor (current : ℚ) (_parameter : String) (_value : String) : Option Value :=
  lookupResult ((AngleGradeEast.withApexY current).dependentParameterValues _parameter
    (Value.str _value)) "apexY"

/-- The forward mapping of `ConjunctivalFlap`: the `method` resolved from a value
of `apexY`. -/
def ConjunctivalFlap.methodOf (v : ℚ) : Option Value :=
  lookupResult ((ConjunctivalFlap.withApexY v).dependentParameterValues "apexY" (Value.num v)) "method"

/-- The resolver of `ConjunctivalFlap` for `method`: the `apexY` returned for the
requested method when the current `apexY` is `current`. -/
def ConjunctivalFlap.apexYFor (current : ℚ) (_value : String) : Option Value :=
  lookupResult ((ConjunctivalFlap.withApexY current).dependentParameterValues "method"
    (Value.str _value)) "apexY"

/-- The sub-range of `-apexY` that represents a grade, as the pair of its
inclusive lower bound and its exclusive upper bound (no upper bound for grade
`"0"`), read off the forward mapping: `"0"` from 470, `"1"` is `[404, 470)`,
`"2"` is `[306, 404)`, `"3"` is `[270, 306)`, `"4"` is `[230, 270)` within the
declared range. -/
def AngleGradeEast.gradeSubRange (g : String) : Option (ℚ × Option ℚ) :=
  if g = "0" then some (470, none)
  else if g = "1" then some (404, some 470)
  else if g = "2" then some (306, some 404)
  else if g = "3" then some (270, some 306)
  else if g = "4" then some (230, some 270)
  else none

/-- The value `y` is the boundary of the sub-range of grade `g` (in terms of
`apexY`: the negated bounds) that is closest to `current`. -/
def AngleGradeEast.IsClosestBoundary (current : ℚ) (g : String) (y : ℚ) : Prop :=
  match AngleGradeEast.gradeSubRange g with
  | none => False
  | some (lo, none) => y = -lo
  | some (lo, some hi) =>
    (y = -lo ∧ |(-lo) - current| ≤ |(-hi) - current|)
    ∨ (y = -hi ∧ |(-hi) - current| ≤ |(-lo) - current|)

/-- The numeric grade denoted by a grade string. -/
def AngleGradeEast.gradeNumber (g : Value) : Option ℕ :=
  if g = Value.str "0" then some 0
  else if g = Value.str "1" then some 1
  else if g = Value.str "2" then some 2
  else if g = Value.str "3" then some 3
  else if g = Value.str "4" then some 4
  else none

/-- The value of `Math.PI`: the double nearest to the circle constant,
`0x400921FB54442D18`, as a rational; used for concrete instances. -/
def Math.PI : ℚ := 884279719003555 / 281474976710656

/-- The start of the angular span of a sector: `rotation - arc / 2`. -/
def SectorPRP.spanStart (d : SectorPRP) : ℚ := d.rotation - d.arc / 2

/-- The end of the angular span of a sector: `rotation + arc / 2`. -/
def SectorPRP.spanEnd (d : SectorPRP) : ℚ := d.rotation + d.arc / 2

/-- Two sectors overlap as sets of directions: some turn-shifted copy of the
span of `d` meets the span of `e`. -/
def SectorPRP.Overlaps (pi : ℚ) (d e : SectorPRP) : Prop :=
  ∃ k : ℤ, d.spanStart + 2 * pi * k ≤ e.spanEnd ∧ e.spanStart ≤ d.spanEnd + 2 * pi * k

/-- The `grade` case of the resolver of `AngleGradeEast` with the literals `-306`
and `-270` replaced by the named constants their comments cite, `-this.rcbo` and
`-this.riro`; to be compared with `AngleGradeEast.dependentOfGrade`. -/
def AngleGradeEast.dependentOfGradeNamed (self : AngleGradeEast) (_value : Value) :
    ReturnArray :=
  let returnValue : Value :=
    if _value = Value.str "0" then
      (if -self.apexY ≥ self.rsli then Value.num self.apexY else Value.num (-self.rsli))
    else if _value = Value.str "1" then
      (if -self.apexY ≥ self.rtmo ∧ -self.apexY < self.rsli then Value.num self.apexY
       else Value.num (-self.rtmo))
    else if _value = Value.str "2" then
      (if -self.apexY ≥ self.rcbo ∧ -self.apexY < self.rtmo then Value.num self.apexY
       else Value.num (-self.rcbo))
    else if _value = Value.str "3" then
      (if -self.apexY ≥ self.riro ∧ -self.apexY < self.rcbo then Value.num self.apexY
       else Value.num (-self.riro))
    else if _value = Value.str "4" then
      (if -self.apexY ≥ self.riri ∧ -self.apexY < self.riro then Value.num self.apexY
       else Value.num (-self.riri))
    else Value.str ""
  [("apexY", returnValue)]

/-- The number of motifs drawn in a list of bands. -/
def motifCount (bands : List Band) : ℕ := (bands.map (fun b => b.spots.length)).sum

/-- The angle of the starting edge of a sector of the given arc in the frame of
the motif loop: the initial value `-Math.PI / 2 - arcStart` of `a`, which is
`-arc / 2`. -/
def startEdge (pi arc : ℚ) : ℚ := -pi / 2 - (-pi / 2 + arc / 2)

/-- The angle at which the inner loop draws motif number `j` of a band whose
table entry is `c`: the value assigned to `a` in the loop body. -/
def spotAngle (pi arcStart c : ℚ) (j : ℕ) : ℚ := -pi / 2 - arcStart + j * 2 * pi / c

/-- The value of `a` at the loop test that follows motif number `j`: the angle of
the motif advanced by `sd / r`. -/
def afterSpot (pi arcStart sd r c : ℚ) (j : ℕ) : ℚ := spotAngle pi arcStart c j + sd / r

/-- The bound of the inner loop: `this.arc - Math.PI / 2 - arcStart`. -/
def angleBound (pi arc arcStart : ℚ) : ℚ := arc - pi / 2 - arcStart

end ED

namespace ED

/-! ## Shared lemmas: closed forms of the embedded mappings -/

theorem AngleGradeEast.dependentOfApexY_eq (a v : ℚ) :
    (AngleGradeEast.withApexY a).dependentOfApexY v =
      [("grade", Value.str (if 470 ≤ -v then "0" else if 404 ≤ -v then "1"
          else if 306 ≤ -v then "2" else if 270 ≤ -v then "3" else "4")),
       ("seen", Value.str (if 470 ≤ -v then "No" else "Yes"))] := by
  simp only [AngleGradeEast.dependentOfApexY, AngleGradeEast.withApexY, ge_iff_le]

theorem AngleGradeEast.dependentParameterValues_apexY (a v : ℚ) :
    (AngleGradeEast.withApexY a).dependentParameterValues "apexY" (Value.num v) =
      some [("grade", Value.str (if 470 ≤ -v then "0" else if 404 ≤ -v then "1"
          else if 306 ≤ -v then "2" else if 270 ≤ -v then "3" else "4")),
       ("seen", Value.str (if 470 ≤ -v then "No" else "Yes"))] := by
  simp only [AngleGradeEast.dependentParameterValues, if_true,
    AngleGradeEast.dependentOfApexY_eq]

theorem AngleGradeEast.gradeOf_eq (v : ℚ) :
    AngleGradeEast.gradeOf v =
      some (Value.str (if 470 ≤ -v then "0" else if 404 ≤ -v then "1"
          else if 306 ≤ -v then "2" else if 270 ≤ -v then "3" else "4")) := by
  simp [AngleGradeEast.gradeOf, lookupResult, AngleGradeEast.dependentParameterValues,
    AngleGradeEast.dependentOfApexY_eq, List.lookup]

theorem AngleGradeEast.seenOf_eq (v : ℚ) :
    AngleGradeEast.seenOf v = some (Value.str (if 470 ≤ -v then "No" else "Yes")) := by
  simp [AngleGradeEast.seenOf, lookupResult, AngleGradeEast.dependentParameterValues,
    AngleGradeEast.dependentOfApexY_eq, List.lookup]

theorem AngleGradeEast.dependentParameterValues_grade (a : ℚ) (g : String) :
    (AngleGradeEast.withApexY a).dependentParameterValues "grade" (Value.str g) = some [("apexY",
      if g = "0" then Value.num (if 470 ≤ -a then a else -470)
      else if g = "1" then Value.num (if 404 ≤ -a ∧ -a < 470 then a else -404)
      else if g = "2" then Value.num (if 306 ≤ -a ∧ -a < 404 then a else -306)
      else if g = "3" then Value.num (if 270 ≤ -a ∧ -a < 306 then a else -270)
      else if g = "4" then Value.num (if 230 ≤ -a ∧ -a < 270 then a else -230)
      else Value.str "")] := by
  simp only [AngleGradeEast.dependentParameterValues,
    AngleGradeEast.dependentOfGrade, AngleGradeEast.withApexY, ge_iff_le, Value.str.injEq]
  simp only [show ("grade" = "apexY") = False from by decide, if_false, if_true]
  split_ifs <;> rfl

theorem AngleGradeEast.dependentParameterValues_seen (a : ℚ) (s : String) :
    (AngleGradeEast.withApexY a).dependentParameterValues "seen" (Value.str s) = some [("apexY",
      if s = "No" then Value.num (if 470 ≤ -a then a else -470)
      else if s = "Yes" then Value.num (if -a < 470 then a else -230)
      else Value.str "")] := by
  simp only [AngleGradeEast.dependentParameterValues,
    AngleGradeEast.dependentOfSeen, AngleGradeEast.withApexY, ge_iff_le, Value.str.injEq]
  simp only [show ("seen" = "apexY") = False from by decide,
    show ("seen" = "grade") = False from by decide, if_false, if_true]
  split_ifs <;> rfl

theorem AngleGradeEast.apexYFor_grade (a : ℚ) (g : String) :
    AngleGradeEast.apexYFor a "grade" g = some (
      if g = "0" then Value.num (if 470 ≤ -a then a else -470)
      else if g = "1" then Value.num (if 404 ≤ -a ∧ -a < 470 then a else -404)
      else if g = "2" then Value.num (if 306 ≤ -a ∧ -a < 404 then a else -306)
      else if g = "3" then Value.num (if 270 ≤ -a ∧ -a < 306 then a else -270)
      else if g = "4" then Value.num (if 230 ≤ -a ∧ -a < 270 then a else -230)
      else Value.str "") := by
  simp only [AngleGradeEast.apexYFor, lookupResult, AngleGradeEast.dependentParameterValues_grade,
    Option.some_bind, List.lookup, beq_self_eq_true]

theorem AngleGradeEast.apexYFor_seen (a : ℚ) (s : String) :
    AngleGradeEast.apexYFor a "seen" s = some (
      if s = "No" then Value.num (if 470 ≤ -a then a else -470)
      else if s = "Yes" then Value.num (if -a < 470 then a else -230)
      else Value.str "") := by
  simp only [AngleGradeEast.apexYFor, lookupResult, AngleGradeEast.dependentParameterValues_seen,
    Option.some_bind, List.lookup, beq_self_eq_true]

theorem ConjunctivalFlap.methodOf_eq (v : ℚ) :
    ConjunctivalFlap.methodOf v =
      some (Value.str (if v < -380 then "Fornix-based" else "Limbus-based")) := by
  simp only [ConjunctivalFlap.methodOf, lookupResult, ConjunctivalFlap.dependentParameterValues,
    ConjunctivalFlap.dependentOfApexY, if_true, Option.some_bind]
  split_ifs <;> rfl

theorem ConjunctivalFlap.apexYFor_eq (a : ℚ) (m : String) :
    ConjunctivalFlap.apexYFor a m =
      if m = "Fornix-based" then some (Value.num (-660))
      else if m = "Limbus-based" then some (Value.num (-100))
      else none := by
  simp only [ConjunctivalFlap.apexYFor, lookupResult, ConjunctivalFlap.dependentParameterValues,
    ConjunctivalFlap.dependentOfMethod, Value.str.injEq]
  simp only [show ("method" = "apexY") = False from by decide, if_false, if_true, Option.some_bind]
  split_ifs <;> rfl

/-! ## C1: the forward mapping of AngleGradeEast -/

/-- C1: for every number `v` (and whatever the current `apexY`),
`dependentParameterValues('apexY', v)` returns a legal grade and a legal `seen`
value, with grade `'0'` iff `-v >= 470`, `'1'` iff `404 <= -v < 470`, `'2'` iff
`306 <= -v < 404`, `'3'` iff `270 <= -v < 306`, `'4'` iff `-v < 270`, and `seen`
equal to `'No'` iff `-v >= 470` and to `'Yes'` otherwise; at `v = -270` the grade is
`'3'` and `seen` is `'Yes'`. -/
theorem AngleGradeEast.forward_mapping_partition :
    (∀ a v : ℚ, ∃ g s : String,
      (AngleGradeEast.withApexY a).dependentParameterValues "apexY" (Value.num v)
        = some [("grade", Value.str g), ("seen", Value.str s)]
      ∧ g ∈ AngleGradeEast.gradeList ∧ s ∈ AngleGradeEast.seenList
      ∧ (g = "0" ↔ 470 ≤ -v)
      ∧ (g = "1" ↔ 404 ≤ -v ∧ -v < 470)
      ∧ (g = "2" ↔ 306 ≤ -v ∧ -v < 404)
      ∧ (g = "3" ↔ 270 ≤ -v ∧ -v < 306)
      ∧ (g = "4" ↔ -v < 270)
      ∧ (s = "No" ↔ 470 ≤ -v)
      ∧ (s = "Yes" ↔ ¬ 470 ≤ -v))
    ∧ (∀ a : ℚ, (AngleGradeEast.withApexY a).dependentParameterValues "apexY" (Value.num (-270))
        = some [("grade", Value.str "3"), ("seen", Value.str "Yes")]) := by
  refine ⟨fun a v => ?_, fun a => ?_⟩
  · rw [AngleGradeEast.dependentParameterValues_apexY]
    refine ⟨_, _, rfl, ?_⟩
    simp only [AngleGradeEast.gradeList, AngleGradeEast.seenList]
    split_ifs <;> refine ⟨by decide, by decide, ?_, ?_, ?_, ?_, ?_, ?_, ?_⟩ <;>
        constructor <;> intro h <;>
        first
          | exact absurd h (by decide)
          | rfl
          | assumption
          | (constructor <;> linarith)
          | linarith
  · rw [AngleGradeEast.dependentParameterValues_apexY]
    norm_num

/-! ## C2: grade '0' requested from apexY = -270 -/

/-- C2 (as stated, refuted): with the current `apexY` equal to `-270`,
`dependentParameterValues('grade', '0')` does not resolve `apexY` to `-rsl = -480`,
the negative of the outer sensitivity-limit radius. -/
theorem AngleGradeEast.grade0_not_outer_limit :
    (AngleGradeEast.withApexY (-270)).rsl = 480
    ∧ (AngleGradeEast.withApexY (-270)).dependentParameterValues "grade" (Value.str "0")
        ≠ some [("apexY", Value.num (-(AngleGradeEast.withApexY (-270)).rsl))] := by
  decide

/-- C2 (amended): with the current `apexY` equal to `-270`,
`dependentParameterValues('grade', '0')` resolves `apexY` to `-rsli = -470`, the
negative of the inner sensitivity-limit radius, which is the minimum of the range
declared for `apexY`. -/
theorem AngleGradeEast.grade0_inner_limit :
    (AngleGradeEast.withApexY (-270)).dependentParameterValues "grade" (Value.str "0")
        = some [("apexY", Value.num (-(AngleGradeEast.withApexY (-270)).rsli))]
    ∧ (AngleGradeEast.withApexY (-270)).rsli = 470
    ∧ -(AngleGradeEast.withApexY (-270)).rsli = (AngleGradeEast.withApexY (-270)).apexYRange.min := by
  decide

/-! ## C3: derived to simple to derived is a fixed point -/

/-- C3: for every legal derived value `d` and every current `apexY`, the resolver
returns a number whose forward mapping is `d` again, for `grade` and `seen` of
AngleGradeEast and for `method` of ConjunctivalFlap; hence, for every `apexY`,
resolving to the derived value, back to `apexY` and forward again gives the same
derived value. -/
theorem derived_fixed_point :
    (∀ d ∈ AngleGradeEast.gradeList, ∀ a : ℚ, ∃ y : ℚ,
      AngleGradeEast.apexYFor a "grade" d = some (Value.num y)
      ∧ AngleGradeEast.gradeOf y = some (Value.str d))
    ∧ (∀ d ∈ AngleGradeEast.seenList, ∀ a : ℚ, ∃ y : ℚ,
      AngleGradeEast.apexYFor a "seen" d = some (Value.num y)
      ∧ AngleGradeEast.seenOf y = some (Value.str d))
    ∧ (∀ d ∈ ConjunctivalFlap.methodList, ∀ a : ℚ, ∃ y : ℚ,
      ConjunctivalFlap.apexYFor a d = some (Value.num y)
      ∧ ConjunctivalFlap.methodOf y = some (Value.str d))
    ∧ (∀ v : ℚ, ∃ (g : String) (y : ℚ), g ∈ AngleGradeEast.gradeList
      ∧ AngleGradeEast.gradeOf v = some (Value.str g)
      ∧ AngleGradeEast.apexYFor v "grade" g = some (Value.num y)
      ∧ AngleGradeEast.gradeOf y = some (Value.str g))
    ∧ (∀ v : ℚ, ∃ (s : String) (y : ℚ), s ∈ AngleGradeEast.seenList
      ∧ AngleGradeEast.seenOf v = some (Value.str s)
      ∧ AngleGradeEast.apexYFor v "seen" s = some (Value.num y)
      ∧ AngleGradeEast.seenOf y = some (Value.str s))
    ∧ (∀ v : ℚ, ∃ (m : String) (y : ℚ), m ∈ ConjunctivalFlap.methodList
      ∧ ConjunctivalFlap.methodOf v = some (Value.str m)
      ∧ ConjunctivalFlap.apexYFor v m = some (Value.num y)
      ∧ ConjunctivalFlap.methodOf y = some (Value.str m)) := by
  have hg : ∀ d ∈ AngleGradeEast.gradeList, ∀ a : ℚ, ∃ y : ℚ,
      AngleGradeEast.apexYFor a "grade" d = some (Value.num y)
      ∧ AngleGradeEast.gradeOf y = some (Value.str d) := by
    intro d hd a
    simp only [AngleGradeEast.gradeList, List.mem_cons, List.mem_singleton, List.mem_nil_iff,
      or_false] at hd
    rw [AngleGradeEast.apexYFor_grade]
    rcases hd with rfl | rfl | rfl | rfl | rfl
    all_goals
      simp only [show ("4" = "0") = False from by decide, show ("4" = "1") = False from by decide,
        show ("4" = "2") = False from by decide, show ("4" = "3") = False from by decide,
        show ("3" = "0") = False from by decide, show ("3" = "1") = False from by decide,
        show ("3" = "2") = False from by decide, show ("2" = "0") = False from by decide,
        show ("2" = "1") = False from by decide, show ("1" = "0") = False from by decide,
        if_false, if_true]
      refine ⟨_, rfl, ?_⟩
      rw [AngleGradeEast.gradeOf_eq]
      congr 2
      split_ifs <;> first | rfl | (exfalso; linarith)
  have hs : ∀ d ∈ AngleGradeEast.seenList, ∀ a : ℚ, ∃ y : ℚ,
      AngleGradeEast.apexYFor a "seen" d = some (Value.num y)
      ∧ AngleGradeEast.seenOf y = some (Value.str d) := by
    intro d hd a
    simp only [AngleGradeEast.seenList, List.mem_cons, List.mem_singleton, List.mem_nil_iff,
      or_false] at hd
    rw [AngleGradeEast.apexYFor_seen]
    rcases hd with rfl | rfl
    all_goals
      simp only [show ("Yes" = "No") = False from by decide, if_false, if_true]
      refine ⟨_, rfl, ?_⟩
      rw [AngleGradeEast.seenOf_eq]
      congr 2
      split_ifs <;> first | rfl | (exfalso; linarith)
  have hm : ∀ d ∈ ConjunctivalFlap.methodList, ∀ a : ℚ, ∃ y : ℚ,
      ConjunctivalFlap.apexYFor a d = some (Value.num y)
      ∧ ConjunctivalFlap.methodOf y = some (Value.str d) := by
    intro d hd a
    simp only [ConjunctivalFlap.methodList, List.mem_cons, List.mem_singleton, List.mem_nil_iff,
      or_false] at hd
    rw [ConjunctivalFlap.apexYFor_eq]
    rcases hd with rfl | rfl
    · exact ⟨-660, by simp, by rw [ConjunctivalFlap.methodOf_eq]; norm_num⟩
    · refine ⟨-100, ?_, by rw [ConjunctivalFlap.methodOf_eq]; norm_num⟩
      simp only [show ("Limbus-based" = "Fornix-based") = False from by decide, if_false, if_true]
  refine ⟨hg, hs, hm, fun v => ?_, fun v => ?_, fun v => ?_⟩
  · have hmem : (if 470 ≤ -v then "0" else if 404 ≤ -v then "1"
          else if 306 ≤ -v then "2" else if 270 ≤ -v then "3" else "4")
        ∈ AngleGradeEast.gradeList := by
      simp only [AngleGradeEast.gradeList]; split_ifs <;> decide
    obtain ⟨y, h1, h2⟩ := hg _ hmem v
    exact ⟨_, y, hmem, AngleGradeEast.gradeOf_eq v, h1, h2⟩
  · have hmem : (if 470 ≤ -v then "No" else "Yes") ∈ AngleGradeEast.seenList := by
      simp only [AngleGradeEast.seenList]; split_ifs <;> decide
    obtain ⟨y, h1, h2⟩ := hs _ hmem v
    exact ⟨_, y, hmem, AngleGradeEast.seenOf_eq v, h1, h2⟩
  · have hmem : (if v < -380 then "Fornix-based" else "Limbus-based")
        ∈ ConjunctivalFlap.methodList := by
      simp only [ConjunctivalFlap.methodList]; split_ifs <;> decide
    obtain ⟨y, h1, h2⟩ := hm _ hmem v
    exact ⟨_, y, hmem, ConjunctivalFlap.methodOf_eq v, h1, h2⟩

/-- C3 at a concrete input: from `apexY = -470`, requesting grade `'3'` gives an
`apexY` whose grade is `'3'`. -/
theorem derived_fixed_point_witness :
    ∃ y : ℚ, AngleGradeEast.apexYFor (-470) "grade" "3" = some (Value.num y)
      ∧ AngleGradeEast.gradeOf y = some (Value.str "3") :=
  derived_fixed_point.1 "3" (by decide) (-470)

/-! ## C4: AngleGradeEast keeps an apexY that already represents the derived value -/

/-- C4: for every current `apexY` in the declared range `[-470, -230]`, if the
forward mapping of `apexY` gives grade `g` then `dependentParameterValues('grade', g)`
returns that same `apexY`, and if it gives `seen` value `s` then
`dependentParameterValues('seen', s)` returns that same `apexY`. -/
theorem AngleGradeEast.resolver_keeps_represented (a : ℚ)
    (h : (AngleGradeEast.withApexY a).apexYRange.includes a) :
    (∀ g : String, AngleGradeEast.gradeOf a = some (Value.str g) →
      (AngleGradeEast.withApexY a).dependentParameterValues "grade" (Value.str g)
        = some [("apexY", Value.num a)])
    ∧ (∀ s : String, AngleGradeEast.seenOf a = some (Value.str s) →
      (AngleGradeEast.withApexY a).dependentParameterValues "seen" (Value.str s)
        = some [("apexY", Value.num a)]) := by
  obtain ⟨h1, h2⟩ := h
  simp only [AngleGradeEast.apexYRange, AngleGradeEast.withApexY] at h1 h2
  have h230 : 230 ≤ -a := by linarith
  constructor
  · intro g hg
    rw [AngleGradeEast.gradeOf_eq] at hg
    simp only [Option.some.injEq, Value.str.injEq] at hg
    rw [AngleGradeEast.dependentParameterValues_grade]
    by_cases c0 : 470 ≤ -a
    · rw [if_pos c0] at hg
      subst hg
      simp [c0]
    have c0' : -a < 470 := not_le.mp c0
    by_cases c1 : 404 ≤ -a
    · rw [if_neg c0, if_pos c1] at hg
      subst hg
      simp [c0', c1]
    have c1' : -a < 404 := not_le.mp c1
    by_cases c2 : 306 ≤ -a
    · rw [if_neg c0, if_neg c1, if_pos c2] at hg
      subst hg
      simp [c1', c2]
    have c2' : -a < 306 := not_le.mp c2
    by_cases c3 : 270 ≤ -a
    · rw [if_neg c0, if_neg c1, if_neg c2, if_pos c3] at hg
      subst hg
      simp [c2', c3]
    have c3' : -a < 270 := not_le.mp c3
    rw [if_neg c0, if_neg c1, if_neg c2, if_neg c3] at hg
    subst hg
    simp [c3', h230]
  · intro s hs
    rw [AngleGradeEast.seenOf_eq] at hs
    simp only [Option.some.injEq, Value.str.injEq] at hs
    rw [AngleGradeEast.dependentParameterValues_seen]
    by_cases c0 : 470 ≤ -a
    · rw [if_pos c0] at hs
      subst hs
      simp [c0]
    have c0' : -a < 470 := not_le.mp c0
    rw [if_neg c0] at hs
    subst hs
    simp [c0']

/-- C4 at a concrete input: `apexY = -300` is in the declared range, has grade
`'3'`, and requesting grade `'3'` returns `-300`. -/
theorem AngleGradeEast.resolver_keeps_represented_witness :
    (AngleGradeEast.withApexY (-300)).apexYRange.includes (-300)
    ∧ AngleGradeEast.gradeOf (-300) = some (Value.str "3")
    ∧ (AngleGradeEast.withApexY (-300)).dependentParameterValues "grade" (Value.str "3")
        = some [("apexY", Value.num (-300))] :=
  ⟨by decide, by decide,
    (AngleGradeEast.resolver_keeps_represented (-300) (by decide)).1 "3" (by decide)⟩

/-! ## C5: ConjunctivalFlap does not keep a value inside the target sub-range -/

/-- C5 (as stated, refuted): `apexY = -500` lies in the declared range and its
method is `'Fornix-based'`, yet `dependentParameterValues('method', 'Fornix-based')`
does not return `-500`. -/
theorem ConjunctivalFlap.method_resolver_moves_inside_value :
    (ConjunctivalFlap.withApexY (-500)).apexYRange.includes (-500)
    ∧ ConjunctivalFlap.methodOf (-500) = some (Value.str "Fornix-based")
    ∧ (ConjunctivalFlap.withApexY (-500)).dependentParameterValues "method"
        (Value.str "Fornix-based") ≠ some [("apexY", Value.num (-500))] := by
  decide

/-- C5 (amended): the `method` resolver of ConjunctivalFlap does not look at the
current `apexY`: it returns the same result for every current `apexY`; for
`'Limbus-based'` this is `-100`, the maximum of the declared range, so a current
`apexY` in `[-640, -100]` whose method is `'Limbus-based'` is kept exactly when it
is already `-100`. -/
theorem ConjunctivalFlap.method_resolver_ignores_current :
    (∀ (a b : ℚ) (m : Value),
      (ConjunctivalFlap.withApexY a).dependentParameterValues "method" m
        = (ConjunctivalFlap.withApexY b).dependentParameterValues "method" m)
    ∧ (∀ a : ℚ, (ConjunctivalFlap.withApexY a).apexYRange.includes a →
        ConjunctivalFlap.methodOf a = some (Value.str "Limbus-based") →
        (ConjunctivalFlap.withApexY a).dependentParameterValues "method" (Value.str "Limbus-based")
            = some [("apexY", Value.num (-100))]
        ∧ (ConjunctivalFlap.withApexY a).apexYRange.max = -100
        ∧ ((ConjunctivalFlap.withApexY a).dependentParameterValues "method"
              (Value.str "Limbus-based") = some [("apexY", Value.num a)] ↔ a = -100)) := by
  refine ⟨fun a b m => rfl, fun a _ _ => ?_⟩
  have h : (ConjunctivalFlap.withApexY a).dependentParameterValues "method"
      (Value.str "Limbus-based") = some [("apexY", Value.num (-100))] := by
    simp [ConjunctivalFlap.dependentParameterValues, ConjunctivalFlap.dependentOfMethod]
  refine ⟨h, rfl, ?_⟩
  rw [h]
  constructor
  · intro e
    simp only [Option.some.injEq, List.cons.injEq, Prod.mk.injEq, Value.num.injEq, and_true,
      true_and] at e
    exact e.symm
  · intro e
    rw [e]

/-- C5 (amended) at concrete inputs: `apexY = -200` is in the declared range with
method `'Limbus-based'`, and requesting `'Limbus-based'` returns `-100`. -/
theorem ConjunctivalFlap.method_resolver_ignores_current_witness :
    (ConjunctivalFlap.withApexY (-200)).apexYRange.includes (-200)
    ∧ ConjunctivalFlap.methodOf (-200) = some (Value.str "Limbus-based")
    ∧ (ConjunctivalFlap.withApexY (-200)).dependentParameterValues "method"
        (Value.str "Limbus-based") = some [("apexY", Value.num (-100))] :=
  ⟨by decide, by decide,
    (ConjunctivalFlap.method_resolver_ignores_current.2 (-200) (by decide) (by decide)).1⟩

/-! ## C6: where AngleGradeEast snaps when the current apexY is outside the sub-range -/

/-- C6 (as stated, refuted): `apexY = -470` is in the declared range and outside
the sub-range of grade `'1'`, yet `dependentParameterValues('grade', '1')` does not
return the boundary of that sub-range closest to `-470`: it returns `-404`, at
distance 66, while the other boundary is at distance 0. -/
theorem AngleGradeEast.snap_not_closest_boundary :
    (AngleGradeEast.withApexY (-470)).apexYRange.includes (-470)
    ∧ AngleGradeEast.gradeOf (-470) ≠ some (Value.str "1")
    ∧ AngleGradeEast.apexYFor (-470) "grade" "1" = some (Value.num (-404))
    ∧ ¬ AngleGradeEast.IsClosestBoundary (-470) "1" (-404) := by
  refine ⟨by decide, by decide, by decide, ?_⟩
  have hr : AngleGradeEast.gradeSubRange "1" = some (404, some 470) := by decide
  simp only [AngleGradeEast.IsClosestBoundary, hr]
  norm_num

/-- C6 (amended): when the current `apexY` (in `[-470, -230]`) lies outside the
sub-range of the requested legal grade `g`, `dependentParameterValues('grade', g)`
snaps `apexY` to the inclusive end of that sub-range (`-470`, `-404`, `-306`, `-270`,
`-230` for `'0'` to `'4'`), whose grade is `g`; this is the boundary closest to the
current `apexY` when the current `apexY` lies above the sub-range, and not the
closest one when it lies at or below the other end. -/
theorem AngleGradeEast.snap_to_inclusive_end (a : ℚ) (g : String)
    (h : (AngleGradeEast.withApexY a).apexYRange.includes a)
    (hg : g ∈ AngleGradeEast.gradeList)
    (hout : AngleGradeEast.gradeOf a ≠ some (Value.str g)) :
    ∃ (lo : ℚ) (hi : Option ℚ), AngleGradeEast.gradeSubRange g = some (lo, hi)
      ∧ (AngleGradeEast.withApexY a).dependentParameterValues "grade" (Value.str g)
          = some [("apexY", Value.num (-lo))]
      ∧ AngleGradeEast.gradeOf (-lo) = some (Value.str g)
      ∧ (-lo < a → AngleGradeEast.IsClosestBoundary a g (-lo))
      ∧ (∀ u : ℚ, hi = some u → a ≤ -u → ¬ AngleGradeEast.IsClosestBoundary a g (-lo)) := by
  obtain ⟨h1, h2⟩ := h
  simp only [AngleGradeEast.apexYRange, AngleGradeEast.withApexY] at h1 h2
  rw [AngleGradeEast.gradeOf_eq] at hout
  simp only [AngleGradeEast.gradeList, List.mem_cons, List.mem_singleton, List.mem_nil_iff,
    or_false] at hg
  rw [AngleGradeEast.dependentParameterValues_grade]
  rcases hg with rfl | rfl | rfl | rfl | rfl
  · have c : ¬ (230 ≤ -a ∧ -a < 270) := by
      rintro ⟨c1, c2⟩
      apply hout
      rw [if_neg (by linarith), if_neg (by linarith), if_neg (by linarith), if_neg (by linarith)]
    have hr : AngleGradeEast.gradeSubRange "4" = some (230, some 270) := by decide
    refine ⟨230, some 270, hr, ?_, ?_, ?_, ?_⟩
    · simp [c]
    · rw [AngleGradeEast.gradeOf_eq]; norm_num
    · intro hlt
      simp only [AngleGradeEast.IsClosestBoundary, hr]
      left
      refine ⟨trivial, ?_⟩
      rw [abs_of_neg (by linarith), abs_of_neg (by linarith)]
      linarith
    · intro u hu hle
      simp only [Option.some.injEq] at hu
      subst hu
      simp only [AngleGradeEast.IsClosestBoundary, hr]
      rintro (⟨-, habs⟩ | ⟨heq, -⟩)
      · rw [abs_of_nonneg (by linarith), abs_of_nonneg (by linarith)] at habs
        linarith
      · norm_num at heq
  · have c : ¬ (270 ≤ -a ∧ -a < 306) := by
      rintro ⟨c1, c2⟩
      apply hout
      rw [if_neg (by linarith), if_neg (by linarith), if_neg (by linarith), if_pos c1]
    have hr : AngleGradeEast.gradeSubRange "3" = some (270, some 306) := by decide
    refine ⟨270, some 306, hr, ?_, ?_, ?_, ?_⟩
    · simp [c]
    · rw [AngleGradeEast.gradeOf_eq]; norm_num
    · intro hlt
      simp only [AngleGradeEast.IsClosestBoundary, hr]
      left
      refine ⟨trivial, ?_⟩
      rw [abs_of_neg (by linarith), abs_of_neg (by linarith)]
      linarith
    · intro u hu hle
      simp only [Option.some.injEq] at hu
      subst hu
      simp only [AngleGradeEast.IsClosestBoundary, hr]
      rintro (⟨-, habs⟩ | ⟨heq, -⟩)
      · rw [abs_of_nonneg (by linarith), abs_of_nonneg (by linarith)] at habs
        linarith
      · norm_num at heq
  · have c : ¬ (306 ≤ -a ∧ -a < 404) := by
      rintro ⟨c1, c2⟩
      apply hout
      rw [if_neg (by linarith), if_neg (by linarith), if_pos c1]
    have hr : AngleGradeEast.gradeSubRange "2" = some (306, some 404) := by decide
    refine ⟨306, some 404, hr, ?_, ?_, ?_, ?_⟩
    · simp [c]
    · rw [AngleGradeEast.gradeOf_eq]; norm_num
    · intro hlt
      simp only [AngleGradeEast.IsClosestBoundary, hr]
      left
      refine ⟨trivial, ?_⟩
      rw [abs_of_neg (by linarith), abs_of_neg (by linarith)]
      linarith
    · intro u hu hle
      simp only [Option.some.injEq] at hu
      subst hu
      simp only [AngleGradeEast.IsClosestBoundary, hr]
      rintro (⟨-, habs⟩ | ⟨heq, -⟩)
      · rw [abs_of_nonneg (by linarith), abs_of_nonneg (by linarith)] at habs
        linarith
      · norm_num at heq
  · have c : ¬ (404 ≤ -a ∧ -a < 470) := by
      rintro ⟨c1, c2⟩
      apply hout
      rw [if_neg (by linarith), if_pos c1]
    have hr : AngleGradeEast.gradeSubRange "1" = some (404, some 470) := by decide
    refine ⟨404, some 470, hr, ?_, ?_, ?_, ?_⟩
    · simp [c]
    · rw [AngleGradeEast.gradeOf_eq]; norm_num
    · intro hlt
      simp only [AngleGradeEast.IsClosestBoundary, hr]
      left
      refine ⟨trivial, ?_⟩
      rw [abs_of_neg (by linarith), abs_of_neg (by linarith)]
      linarith
    · intro u hu hle
      simp only [Option.some.injEq] at hu
      subst hu
      simp only [AngleGradeEast.IsClosestBoundary, hr]
      rintro (⟨-, habs⟩ | ⟨heq, -⟩)
      · rw [abs_of_nonneg (by linarith), abs_of_nonneg (by linarith)] at habs
        linarith
      · norm_num at heq
  · have c : ¬ (470 ≤ -a) := by
      intro c1
      apply hout
      rw [if_pos c1]
    have hr : AngleGradeEast.gradeSubRange "0" = some (470, none) := by decide
    refine ⟨470, none, hr, ?_, ?_, ?_, ?_⟩
    · simp [c]
    · rw [AngleGradeEast.gradeOf_eq]; norm_num
    · intro _
      simp only [AngleGradeEast.IsClosestBoundary, hr]
    · intro u hu
      exact absurd hu (by simp)

/-- C6 (amended) at a concrete input: from `apexY = -470`, which is in the declared
range and has grade `'0'`, requesting grade `'1'` snaps to the inclusive end `-404`. -/
theorem AngleGradeEast.snap_to_inclusive_end_witness :
    (AngleGradeEast.withApexY (-470)).apexYRange.includes (-470)
    ∧ "1" ∈ AngleGradeEast.gradeList
    ∧ AngleGradeEast.gradeOf (-470) ≠ some (Value.str "1")
    ∧ ∃ (lo : ℚ) (hi : Option ℚ), AngleGradeEast.gradeSubRange "1" = some (lo, hi)
      ∧ (AngleGradeEast.withApexY (-470)).dependentParameterValues "grade" (Value.str "1")
          = some [("apexY", Value.num (-lo))]
      ∧ AngleGradeEast.gradeOf (-lo) = some (Value.str "1")
      ∧ (-lo < -470 → AngleGradeEast.IsClosestBoundary (-470) "1" (-lo))
      ∧ (∀ u : ℚ, hi = some u → -470 ≤ -u →
          ¬ AngleGradeEast.IsClosestBoundary (-470) "1" (-lo)) :=
  ⟨by decide, by decide, by decide,
    AngleGradeEast.snap_to_inclusive_end (-470) "1" (by decide) (by decide) (by decide)⟩

/-! ## C7: the apexY returned for a method and the declared range -/

/-- C7 (the code at the failing input): whatever the current `apexY`,
`dependentParameterValues('method', 'Fornix-based')` returns `apexY = -660`, which is
below the minimum `-640` of the range declared for `apexY` and is no boundary of the
`'Fornix-based'` sub-range `[-640, -380)`; the sibling case `'Limbus-based'` returns
`-100`, exactly the maximum of the declared range. -/
theorem ConjunctivalFlap.fornix_snap_below_range (a : ℚ) :
    (ConjunctivalFlap.withApexY a).dependentParameterValues "method" (Value.str "Fornix-based")
        = some [("apexY", Value.num (-660))]
    ∧ (-660 : ℚ) < (ConjunctivalFlap.withApexY a).apexYRange.min
    ∧ ¬ (ConjunctivalFlap.withApexY a).apexYRange.includes (-660)
    ∧ (-660 : ℚ) ≠ -640 ∧ (-660 : ℚ) ≠ -380
    ∧ (ConjunctivalFlap.withApexY a).dependentParameterValues "method" (Value.str "Limbus-based")
        = some [("apexY", Value.num (ConjunctivalFlap.withApexY a).apexYRange.max)] := by
  refine ⟨?_, ?_, ?_, by norm_num, by norm_num, ?_⟩
  · simp [ConjunctivalFlap.dependentParameterValues, ConjunctivalFlap.dependentOfMethod]
  · simp only [ConjunctivalFlap.apexYRange]; norm_num
  · simp only [ConjunctivalFlap.apexYRange, Range.includes]; norm_num
  · simp [ConjunctivalFlap.dependentParameterValues, ConjunctivalFlap.dependentOfMethod,
      ConjunctivalFlap.apexYRange]

/-! ## C8: the forward mappings are monotone -/

theorem AngleGradeEast.gradeNumber_gradeOf (v : ℚ) :
    (AngleGradeEast.gradeOf v).bind AngleGradeEast.gradeNumber =
      some (if 470 ≤ -v then 0 else if 404 ≤ -v then 1
          else if 306 ≤ -v then 2 else if 270 ≤ -v then 3 else 4) := by
  rw [AngleGradeEast.gradeOf_eq]
  simp only [Option.some_bind]
  split_ifs <;> decide

/-- C8: for all numbers `a <= b`, the numeric grade resolved from `apexY = a` is at
most the numeric grade resolved from `apexY = b`; `seen` can only go from `'No'` to
`'Yes'` as `apexY` increases; and in ConjunctivalFlap, if `apexY = a` resolves to
`'Limbus-based'` then so does `apexY = b`. -/
theorem forward_mappings_monotone (a b : ℚ) (h : a ≤ b) :
    (∃ m n : ℕ, (AngleGradeEast.gradeOf a).bind AngleGradeEast.gradeNumber = some m
      ∧ (AngleGradeEast.gradeOf b).bind AngleGradeEast.gradeNumber = some n ∧ m ≤ n)
    ∧ (AngleGradeEast.seenOf a = some (Value.str "Yes") →
        AngleGradeEast.seenOf b = some (Value.str "Yes"))
    ∧ (AngleGradeEast.seenOf b = some (Value.str "No") →
        AngleGradeEast.seenOf a = some (Value.str "No"))
    ∧ (ConjunctivalFlap.methodOf a = some (Value.str "Limbus-based") →
        ConjunctivalFlap.methodOf b = some (Value.str "Limbus-based")) := by
  refine ⟨⟨_, _, AngleGradeEast.gradeNumber_gradeOf a, AngleGradeEast.gradeNumber_gradeOf b, ?_⟩,
    ?_, ?_, ?_⟩
  · split_ifs <;> first | decide | (exfalso; linarith)
  · rw [AngleGradeEast.seenOf_eq, AngleGradeEast.seenOf_eq]
    by_cases ca : 470 ≤ -a
    · simp [ca]
    · have cb : ¬ 470 ≤ -b := fun hb => ca (by linarith)
      simp [cb]
  · rw [AngleGradeEast.seenOf_eq, AngleGradeEast.seenOf_eq]
    by_cases cb : 470 ≤ -b
    · have ca : 470 ≤ -a := by linarith
      simp [ca]
    · simp [cb]
  · rw [ConjunctivalFlap.methodOf_eq, ConjunctivalFlap.methodOf_eq]
    by_cases ca : a < -380
    · simp [ca]
    · have cb : ¬ b < -380 := fun hb => ca (by linarith)
      simp [cb]

/-- C8 at a concrete input: `-470 <= -300`, with grades 0 and 3. -/
theorem forward_mappings_monotone_witness :
    (-470 : ℚ) ≤ -300
    ∧ (∃ m n : ℕ, (AngleGradeEast.gradeOf (-470)).bind AngleGradeEast.gradeNumber = some m
      ∧ (AngleGradeEast.gradeOf (-300)).bind AngleGradeEast.gradeNumber = some n ∧ m ≤ n) :=
  ⟨by decide, (forward_mappings_monotone (-470) (-300) (by decide)).1⟩

/-! ## C9: default placement of a new sector next to the last sibling -/

/-- C9: for either eye and every last sibling, the angular span of the sector
placed by `setParameterDefaults` is separated from the sibling's span by exactly
`pi / 12` on the side given by the eye (below the sibling for the right eye, above
it for the left eye); and when the two prior siblings were themselves created by
defaults, the span of the third sector overlaps neither prior span, also when spans
are compared up to whole turns. -/
theorem SectorPRP.defaults_fixed_gap (pi : ℚ) (hpi : 0 < pi) :
    (∀ d : SectorPRP,
      d.spanStart - (SectorPRP.setParameterDefaults pi Eye.Right (some d)).spanEnd = pi / 12
      ∧ (SectorPRP.setParameterDefaults pi Eye.Left (some d)).spanStart - d.spanEnd = pi / 12)
    ∧ (∀ eye : Eye,
      ¬ SectorPRP.Overlaps pi
          (SectorPRP.setParameterDefaults pi eye (some (SectorPRP.setParameterDefaults pi eye
            (some (SectorPRP.setParameterDefaults pi eye none)))))
          (SectorPRP.setParameterDefaults pi eye none)
      ∧ ¬ SectorPRP.Overlaps pi
          (SectorPRP.setParameterDefaults pi eye (some (SectorPRP.setParameterDefaults pi eye
            (some (SectorPRP.setParameterDefaults pi eye none)))))
          (SectorPRP.setParameterDefaults pi eye
            (some (SectorPRP.setParameterDefaults pi eye none)))) := by
  constructor
  · intro d
    simp only [SectorPRP.setParameterDefaults, SectorPRP.spanStart, SectorPRP.spanEnd]
    constructor
    · simp only [if_true]; ring
    · simp only [show (Eye.Left = Eye.Right) = False from by decide, if_false]; ring
  · intro eye
    cases eye
    all_goals
      simp only [SectorPRP.setParameterDefaults, SectorPRP.Overlaps, SectorPRP.spanStart,
        SectorPRP.spanEnd, if_true, show (Eye.Left = Eye.Right) = False from by decide, if_false]
      constructor
      all_goals
        rintro ⟨k, h1, h2⟩
        have hcases : k ≤ -1 ∨ k = 0 ∨ 1 ≤ k := by omega
        rcases hcases with hk | hk | hk
        · have hk' : (k : ℚ) ≤ -1 := by exact_mod_cast hk
          nlinarith [mul_nonneg hpi.le (by linarith : (0 : ℚ) ≤ -1 - k)]
        · subst hk
          simp only [Int.cast_zero, mul_zero, add_zero] at h1 h2
          linarith
        · have hk' : (1 : ℚ) ≤ k := by exact_mod_cast hk
          nlinarith [mul_nonneg hpi.le (by linarith : (0 : ℚ) ≤ k - 1)]

/-- C9 at a concrete input: with `pi = 3` and a sibling of arc 1 and rotation 2,
the right-eye placement ends `3 / 12` below the sibling's span. -/
theorem SectorPRP.defaults_fixed_gap_witness :
    (0 : ℚ) < 3
    ∧ (SectorPRP.spanStart ⟨1, 2⟩
        - (SectorPRP.setParameterDefaults 3 Eye.Right (some ⟨1, 2⟩)).spanEnd = 3 / 12) :=
  ⟨by decide, ((SectorPRP.defaults_fixed_gap 3 (by decide)).1 ⟨1, 2⟩).1⟩

/-! ## C10: the assigned rotation is not reduced modulo a whole turn -/

/-- C10 (as stated, refuted): with `Math.PI` for `pi`, the rotation assigned for
the right eye without a sibling is negative, and the rotation assigned for the left
eye next to a sibling of rotation 6 (in `[0, 2*pi)`) and arc 1 (in `[pi/6, 2*pi]`)
exceeds `2*pi`; neither lies in `[0, 2*pi)`. -/
theorem SectorPRP.default_rotation_outside_turn :
    (SectorPRP.setParameterDefaults Math.PI Eye.Right none).rotation < 0
    ∧ ((0 : ℚ) ≤ 6 ∧ (6 : ℚ) < 2 * Math.PI ∧ (SectorPRP.arcRange Math.PI).includes 1
      ∧ 2 * Math.PI
          ≤ (SectorPRP.setParameterDefaults Math.PI Eye.Left (some ⟨1, 6⟩)).rotation) := by
  simp only [SectorPRP.setParameterDefaults, SectorPRP.arcRange, Range.includes, Math.PI,
    if_true, show (Eye.Left = Eye.Right) = False from by decide, if_false]
  norm_num

/-- C10 (amended): the rotation that `setParameterDefaults` assigns is not reduced
modulo `2*pi`: for either eye and every (possibly absent) last sibling whose rotation
is in `[0, 2*pi)` and whose arc is in `[pi/6, 2*pi]`, the assigned rotation lies
strictly between `-2*pi` and `4*pi`; it is positive for the left eye and below `2*pi`
for the right eye. -/
theorem SectorPRP.default_rotation_bounds (pi : ℚ) (hpi : 0 < pi) (eye : Eye)
    (doodle : Option SectorPRP)
    (h : ∀ d : SectorPRP, doodle = some d →
      0 ≤ d.rotation ∧ d.rotation < 2 * pi ∧ (SectorPRP.arcRange pi).includes d.arc) :
    -(2 * pi) < (SectorPRP.setParameterDefaults pi eye doodle).rotation
    ∧ (SectorPRP.setParameterDefaults pi eye doodle).rotation < 4 * pi
    ∧ (eye = Eye.Left → 0 < (SectorPRP.setParameterDefaults pi eye doodle).rotation)
    ∧ (eye = Eye.Right → (SectorPRP.setParameterDefaults pi eye doodle).rotation < 2 * pi) := by
  cases doodle with
  | none =>
    cases eye
    · simp only [SectorPRP.setParameterDefaults, if_true]
      refine ⟨by linarith, by linarith, fun e => absurd e (by decide), fun _ => by linarith⟩
    · simp only [SectorPRP.setParameterDefaults,
        show (Eye.Left = Eye.Right) = False from by decide, if_false]
      refine ⟨by linarith, by linarith, fun _ => by linarith, fun e => absurd e (by decide)⟩
  | some d =>
    obtain ⟨h0, h1, h2, h3⟩ := h d rfl
    simp only [SectorPRP.arcRange] at h2 h3
    cases eye
    · simp only [SectorPRP.setParameterDefaults, if_true]
      refine ⟨by linarith, by linarith, fun e => absurd e (by decide), fun _ => by linarith⟩
    · simp only [SectorPRP.setParameterDefaults,
        show (Eye.Left = Eye.Right) = False from by decide, if_false]
      refine ⟨by linarith, by linarith, fun _ => by linarith, fun e => absurd e (by decide)⟩

/-- C10 (amended) at a concrete input: with `pi = 3`, the right eye and a sibling of
arc 1 and rotation 2, the assigned rotation is `19 / 24`. -/
theorem SectorPRP.default_rotation_bounds_witness :
    (0 : ℚ) < 3
    ∧ ((0 : ℚ) ≤ 2 ∧ (2 : ℚ) < 2 * 3 ∧ (SectorPRP.arcRange 3).includes 1)
    ∧ (SectorPRP.setParameterDefaults 3 Eye.Right (some ⟨1, 2⟩)).rotation = 19 / 24
    ∧ (-(2 * 3) < (SectorPRP.setParameterDefaults 3 Eye.Right (some ⟨1, 2⟩)).rotation
      ∧ (SectorPRP.setParameterDefaults 3 Eye.Right (some ⟨1, 2⟩)).rotation < 4 * 3
      ∧ (Eye.Right = Eye.Left →
          0 < (SectorPRP.setParameterDefaults 3 Eye.Right (some ⟨1, 2⟩)).rotation)
      ∧ (Eye.Right = Eye.Right →
          (SectorPRP.setParameterDefaults 3 Eye.Right (some ⟨1, 2⟩)).rotation < 2 * 3)) :=
  ⟨by decide, by norm_num [SectorPRP.arcRange, Range.includes],
    by norm_num [SectorPRP.setParameterDefaults],
    SectorPRP.default_rotation_bounds 3 (by decide) Eye.Right (some ⟨1, 2⟩)
      (fun d hd => by
        cases hd
        norm_num [SectorPRP.arcRange, Range.includes])⟩

/-! ## Shared lemmas: the motif loops -/

theorem angleLoop_tail (pi arc arcStart sd r c : ℚ) :
    ∀ (n fuel j : ℕ), n < fuel →
      angleBound pi arc arcStart ≤ afterSpot pi arcStart sd r c (j + n) →
      ∃ k, k ≤ n
        ∧ angleLoop pi arc arcStart sd r (some c) fuel
            (some (afterSpot pi arcStart sd r c j)) (j + 1)
          = some ((List.range k).map (fun m => some (spotAngle pi arcStart c (j + 1 + m))))
        ∧ (∀ m, m < k → afterSpot pi arcStart sd r c (j + m) < angleBound pi arc arcStart)
        ∧ ¬ afterSpot pi arcStart sd r c (j + k) < angleBound pi arc arcStart := by
  intro n
  induction n with
  | zero =>
    intro fuel j hf hstop
    obtain ⟨f, rfl⟩ : ∃ f, fuel = f + 1 := ⟨fuel - 1, by omega⟩
    refine ⟨0, le_refl _, ?_, fun m hm => absurd hm (Nat.not_lt_zero m), ?_⟩
    · have hc : ¬ afterSpot pi arcStart sd r c j < arc - pi / 2 - arcStart := by
        simpa [angleBound] using not_lt.mpr hstop
      simp only [angleLoop, hc, if_false, List.range_zero, List.map_nil]
    · simpa using not_lt.mpr hstop
  | succ n ih =>
    intro fuel j hf hstop
    obtain ⟨f, rfl⟩ : ∃ f, fuel = f + 1 := ⟨fuel - 1, by omega⟩
    by_cases hc : afterSpot pi arcStart sd r c j < angleBound pi arc arcStart
    · have hstop' : angleBound pi arc arcStart ≤ afterSpot pi arcStart sd r c (j + 1 + n) := by
        have e : j + 1 + n = j + (n + 1) := by omega
        rw [e]; exact hstop
      obtain ⟨k, hk, hres, hall, hnot⟩ := ih f (j + 1) (by omega) hstop'
      refine ⟨k + 1, by omega, ?_, ?_, ?_⟩
      · have hc' : afterSpot pi arcStart sd r c j < arc - pi / 2 - arcStart := by
          simpa [angleBound] using hc
        have hnext : (spotAngle pi arcStart c (j + 1)) + sd / r
            = afterSpot pi arcStart sd r c (j + 1) := rfl
        simp only [angleLoop, hc', if_true, Option.map_some']
        have hbody : (-pi / 2 - arcStart + ((j + 1 : ℕ) : ℚ) * 2 * pi / c)
            = spotAngle pi arcStart c (j + 1) := rfl
        rw [hbody, hnext, hres]
        simp only [Option.map_some', List.range_succ_eq_map, List.map_cons, List.map_map]
        congr 2
        apply List.map_congr_left
        intro m _
        simp only [Function.comp, Nat.succ_eq_add_one]
        congr 2
        omega
      · intro m hm
        cases m with
        | zero => simpa using hc
        | succ m =>
          have := hall m (by omega)
          have e : j + (m + 1) = j + 1 + m := by omega
          rw [e]; exact this
      · have e : j + (k + 1) = j + 1 + k := by omega
        rw [e]; exact hnot
    · refine ⟨0, Nat.zero_le _, ?_, fun m hm => absurd hm (Nat.not_lt_zero m), by simpa using hc⟩
      have hc' : ¬ afterSpot pi arcStart sd r c j < arc - pi / 2 - arcStart := by
        simpa [angleBound] using hc
      simp only [angleLoop, hc', if_false, List.range_zero, List.map_nil]

theorem angleLoop_spec (pi arc arcStart sd r c : ℚ) (n fuel : ℕ) (hf : n + 1 < fuel)
    (harc : 0 < arc) (hstop : angleBound pi arc arcStart ≤ afterSpot pi arcStart sd r c n) :
    ∃ k, k ≤ n
      ∧ angleLoop pi arc arcStart sd r (some c) fuel (some (-pi / 2 - arcStart)) 0
        = some ((List.range (k + 1)).map (fun m => some (spotAngle pi arcStart c m)))
      ∧ (∀ m, m < k → afterSpot pi arcStart sd r c m < angleBound pi arc arcStart)
      ∧ ¬ afterSpot pi arcStart sd r c k < angleBound pi arc arcStart := by
  obtain ⟨f, rfl⟩ : ∃ f, fuel = f + 1 := ⟨fuel - 1, by omega⟩
  obtain ⟨k, hk, hres, hall, hnot⟩ :=
    angleLoop_tail pi arc arcStart sd r c n f 0 (by omega) (by simpa using hstop)
  refine ⟨k, hk, ?_, fun m hm => by simpa using hall m hm, by simpa using hnot⟩
  have hc : -pi / 2 - arcStart < arc - pi / 2 - arcStart := by linarith
  have hbody : (-pi / 2 - arcStart + ((0 : ℕ) : ℚ) * 2 * pi / c) = spotAngle pi arcStart c 0 := rfl
  have hnext : spotAngle pi arcStart c 0 + sd / r = afterSpot pi arcStart sd r c 0 := rfl
  simp only [angleLoop, hc, if_true, Option.map_some']
  rw [hbody, hnext, hres]
  simp only [Option.map_some', List.range_succ_eq_map (k), List.map_cons, List.map_map]
  congr 2
  apply List.map_congr_left
  intro m _
  simp only [Function.comp, Nat.succ_eq_add_one]
  congr 2
  omega

theorem afterSpot_mono (pi arcStart sd r c : ℚ) (hpc : 0 ≤ pi / c) {m m' : ℕ} (h : m ≤ m') :
    afterSpot pi arcStart sd r c m ≤ afterSpot pi arcStart sd r c m' := by
  have hm : (m : ℚ) ≤ m' := by exact_mod_cast h
  have e : ∀ j : ℕ, afterSpot pi arcStart sd r c j
      = -pi / 2 - arcStart + 2 * ((j : ℚ) * (pi / c)) + sd / r := by
    intro j
    simp only [afterSpot, spotAngle]
    ring
  rw [e, e]
  have := mul_le_mul_of_nonneg_right hm hpc
  linarith

theorem angleLoop_exact (pi arc arcStart sd r c : ℚ) (n fuel : ℕ) (hf : n + 1 < fuel)
    (harc : 0 < arc) (hpc : 0 ≤ pi / c)
    (hlast : ∀ m, m + 1 = n → afterSpot pi arcStart sd r c m < angleBound pi arc arcStart)
    (hstop : ¬ afterSpot pi arcStart sd r c n < angleBound pi arc arcStart) :
    angleLoop pi arc arcStart sd r (some c) fuel (some (-pi / 2 - arcStart)) 0
      = some ((List.range (n + 1)).map (fun m => some (spotAngle pi arcStart c m))) := by
  obtain ⟨k, hk, hres, -, hnot⟩ :=
    angleLoop_spec pi arc arcStart sd r c n fuel hf harc (not_lt.mp hstop)
  have hkn : k = n := by
    by_contra hne
    have hlt : k < n := lt_of_le_of_ne hk hne
    have h1 := hlast (n - 1) (by omega)
    have h2 := afterSpot_mono pi arcStart sd r c hpc (show k ≤ n - 1 by omega)
    exact hnot (lt_of_le_of_lt h2 h1)
  rw [hres, hkn]

theorem radiusLoop_eq (pi arc arcStart ri sd : ℚ) (count : List ℚ) (fuelA : ℕ) :
    ∀ (k fuel : ℕ) (r : ℚ) (i : ℕ) (L : ℕ → List (Option ℚ)), k < fuel →
      (∀ m, m < k → ri < r - m * sd) → r - k * sd ≤ ri →
      (∀ m, m < k → angleLoop pi arc arcStart sd (r - m * sd) count[i + m]? fuelA
          (some (-pi / 2 - arcStart)) 0 = some (L m)) →
      radiusLoop pi arc arcStart ri sd count fuelA fuel r i
        = some ((List.range k).map
            (fun m => { i := i + m, r := r - m * sd, spots := L m })) := by
  intro k
  induction k with
  | zero =>
    intro fuel r i L hf _ hstop _
    obtain ⟨f, rfl⟩ : ∃ f, fuel = f + 1 := ⟨fuel - 1, by omega⟩
    have hc : ¬ r > ri := by
      simpa using hstop
    simp only [radiusLoop, hc, if_false, List.range_zero, List.map_nil]
  | succ k ih =>
    intro fuel r i L hf hin hstop hspots
    obtain ⟨f, rfl⟩ : ∃ f, fuel = f + 1 := ⟨fuel - 1, by omega⟩
    have hc : r > ri := by
      simpa using hin 0 (by omega)
    have h0 : angleLoop pi arc arcStart sd r count[i]? fuelA (some (-pi / 2 - arcStart)) 0
        = some (L 0) := by
      simpa using hspots 0 (by omega)
    have hrec := ih f (r - sd) (i + 1) (fun m => L (m + 1)) (by omega)
      (fun m hm => by
        have := hin (m + 1) (by omega)
        push_cast at this
        linarith)
      (by push_cast at hstop; linarith)
      (fun m hm => by
        have := hspots (m + 1) (by omega)
        have e1 : i + (m + 1) = i + 1 + m := by omega
        have e2 : r - ((m + 1 : ℕ) : ℚ) * sd = r - sd - (m : ℚ) * sd := by push_cast; ring
        rw [e1, e2] at this
        exact this)
    simp only [radiusLoop, hc, if_true, h0, hrec, Option.map_some',
      List.range_succ_eq_map k, List.map_cons, List.map_map]
    congr 2
    · simp
    · apply List.map_congr_left
      intro m _
      simp only [Function.comp, Nat.succ_eq_add_one]
      congr 1
      · omega
      · push_cast; ring

theorem radiusLoop_spec (pi arc arcStart ri sd : ℚ) (count : List ℚ) (fuelA : ℕ)
    (k fuel : ℕ) (r : ℚ) (i : ℕ) (hk : k < fuel)
    (hin : ∀ m, m < k → ri < r - m * sd) (hout : r - k * sd ≤ ri)
    (N : ℕ) (hN : N + 1 < fuelA) (harc : 0 < arc) (C : ℕ → ℚ)
    (hC : ∀ m, m < k → count[i + m]? = some (C m))
    (hstop : ∀ m, m < k →
      angleBound pi arc arcStart ≤ afterSpot pi arcStart sd (r - m * sd) (C m) N) :
    ∃ K : ℕ → ℕ,
      radiusLoop pi arc arcStart ri sd count fuelA fuel r i
        = some ((List.range k).map (fun m =>
            { i := i + m, r := r - m * sd,
              spots := (List.range (K m + 1)).map
                (fun j => some (spotAngle pi arcStart (C m) j)) }))
      ∧ ∀ m, m < k → K m ≤ N
        ∧ (∀ j, j < K m →
            afterSpot pi arcStart sd (r - m * sd) (C m) j < angleBound pi arc arcStart)
        ∧ ¬ afterSpot pi arcStart sd (r - m * sd) (C m) (K m) < angleBound pi arc arcStart := by
  have h : ∀ m, ∃ kk, m < k → (kk ≤ N
      ∧ angleLoop pi arc arcStart sd (r - m * sd) (some (C m)) fuelA
          (some (-pi / 2 - arcStart)) 0
        = some ((List.range (kk + 1)).map (fun j => some (spotAngle pi arcStart (C m) j)))
      ∧ (∀ j, j < kk →
          afterSpot pi arcStart sd (r - m * sd) (C m) j < angleBound pi arc arcStart)
      ∧ ¬ afterSpot pi arcStart sd (r - m * sd) (C m) kk < angleBound pi arc arcStart) := by
    intro m
    by_cases hm : m < k
    · obtain ⟨kk, h1, h2, h3, h4⟩ :=
        angleLoop_spec pi arc arcStart sd (r - m * sd) (C m) N fuelA hN harc (hstop m hm)
      exact ⟨kk, fun _ => ⟨h1, h2, h3, h4⟩⟩
    · exact ⟨0, fun h' => absurd h' hm⟩
  choose K hK using h
  refine ⟨K, ?_, fun m hm => ⟨(hK m hm).1, (hK m hm).2.2.1, (hK m hm).2.2.2⟩⟩
  apply radiusLoop_eq pi arc arcStart ri sd count fuelA k fuel r i
    (fun m => (List.range (K m + 1)).map (fun j => some (spotAngle pi arcStart (C m) j)))
    hk hin hout
  intro m hm
  rw [hC m hm]
  exact (hK m hm).2.1

theorem stop_unique (pi arc arcStart sd r c : ℚ) (hpc : 0 ≤ pi / c) (K n : ℕ)
    (hK : ∀ j, j < K → afterSpot pi arcStart sd r c j < angleBound pi arc arcStart)
    (hKstop : ¬ afterSpot pi arcStart sd r c K < angleBound pi arc arcStart)
    (hlast : ∀ m, m + 1 = n → afterSpot pi arcStart sd r c m < angleBound pi arc arcStart)
    (hstop : ¬ afterSpot pi arcStart sd r c n < angleBound pi arc arcStart) :
    K = n := by
  rcases Nat.lt_trichotomy K n with h | h | h
  · exfalso
    have h1 := hlast (n - 1) (by omega)
    have h2 := afterSpot_mono pi arcStart sd r c hpc (show K ≤ n - 1 by omega)
    exact hKstop (lt_of_le_of_lt h2 h1)
  · exact h
  · exact absurd (hK n h) hstop

theorem SectorPRP.drawSpots_spec (pi arc rotation : ℚ) (hpi : 0 < pi) (harc : 0 < arc)
    (harc2 : arc ≤ 2 * pi) (fuel : ℕ) (hf : 49 ≤ fuel) :
    ∃ K : ℕ → ℕ,
      SectorPRP.drawSpots pi ⟨arc, rotation⟩ fuel
        = some ((List.range 6).map (fun m =>
            { i := m, r := 446 - m * 60,
              spots := (List.range (K m + 1)).map
                (fun j => some (spotAngle pi (-pi / 2 + arc / 2) (SectorPRP.count.getD m 0) j)) }))
      ∧ ∀ m, m < 6 → K m ≤ 47
        ∧ (∀ j, j < K m →
            afterSpot pi (-pi / 2 + arc / 2) 60 (446 - m * 60) (SectorPRP.count.getD m 0) j
              < angleBound pi arc (-pi / 2 + arc / 2))
        ∧ ¬ afterSpot pi (-pi / 2 + arc / 2) 60 (446 - m * 60) (SectorPRP.count.getD m 0) (K m)
              < angleBound pi arc (-pi / 2 + arc / 2) := by
  have hin : ∀ m : ℕ, m < 6 → (100 : ℚ) < 446 - m * 60 := by
    intro m hm
    interval_cases m <;> norm_num
  have hout : (446 : ℚ) - (6 : ℕ) * 60 ≤ 100 := by norm_num
  have hC : ∀ m, m < 6 → SectorPRP.count[0 + m]? = some (SectorPRP.count.getD m 0) := by
    intro m hm
    interval_cases m <;> rfl
  have hstop : ∀ m : ℕ, m < 6 →
      angleBound pi arc (-pi / 2 + arc / 2)
        ≤ afterSpot pi (-pi / 2 + arc / 2) 60 (446 - m * 60) (SectorPRP.count.getD m 0) 47 := by
    intro m hm
    interval_cases m <;>
      simp only [SectorPRP.count, List.getD_cons_zero, List.getD_cons_succ, afterSpot, spotAngle,
        angleBound] <;> norm_num <;> linarith
  obtain ⟨K, h1, h2⟩ := radiusLoop_spec pi arc (-pi / 2 + arc / 2) 100 60 SectorPRP.count fuel
    6 fuel 446 0 (by omega) hin hout 47 (by omega) harc (fun m => SectorPRP.count.getD m 0)
    hC hstop
  refine ⟨K, ?_, h2⟩
  have e1 : (952 / 2 - 30 : ℚ) = 446 := by norm_num
  have e2 : (30 + 30 : ℚ) = 60 := by norm_num
  simp only [SectorPRP.drawSpots, e1, e2, h1, zero_add]

theorem SectorPRP.drawSpots_counts (pi arc rotation : ℚ) (hpi : 0 < pi) (harc : 0 < arc)
    (harc2 : arc ≤ 2 * pi) (fuel : ℕ) (hf : 49 ≤ fuel) (n : List ℕ)
    (hlast : ∀ m : ℕ, m < 6 → ∀ j : ℕ, j + 1 = n.getD m 0 →
      afterSpot pi (-pi / 2 + arc / 2) 60 (446 - m * 60) (SectorPRP.count.getD m 0) j
        < angleBound pi arc (-pi / 2 + arc / 2))
    (hstop : ∀ m : ℕ, m < 6 →
      ¬ afterSpot pi (-pi / 2 + arc / 2) 60 (446 - m * 60) (SectorPRP.count.getD m 0)
          (n.getD m 0) < angleBound pi arc (-pi / 2 + arc / 2)) :
    SectorPRP.drawSpots pi ⟨arc, rotation⟩ fuel
      = some ((List.range 6).map (fun m =>
          { i := m, r := 446 - m * 60,
            spots := (List.range (n.getD m 0 + 1)).map
              (fun j => some (spotAngle pi (-pi / 2 + arc / 2) (SectorPRP.count.getD m 0) j)) })) := by
  obtain ⟨K, h1, h2⟩ := SectorPRP.drawSpots_spec pi arc rotation hpi harc harc2 fuel hf
  have hpc : ∀ m, m < 6 → 0 ≤ pi / SectorPRP.count.getD m 0 := by
    intro m hm
    interval_cases m <;>
      simp only [SectorPRP.count, List.getD_cons_zero, List.getD_cons_succ] <;> positivity
  have hKn : ∀ m, m < 6 → K m = n.getD m 0 := fun m hm =>
    stop_unique pi arc (-pi / 2 + arc / 2) 60 (446 - m * 60) (SectorPRP.count.getD m 0)
      (hpc m hm) (K m) (n.getD m 0) (h2 m hm).2.1 (h2 m hm).2.2 (hlast m hm) (hstop m hm)
  rw [h1]
  congr 1
  apply List.map_congr_left
  intro m hm
  rw [hKn m (List.mem_range.mp hm)]

theorem SectorPRP.drawSpots_quarter (pi rotation : ℚ) (h1 : 314 / 100 < pi)
    (h2 : pi < 315 / 100) (fuel : ℕ) (hf : 49 ≤ fuel) :
    SectorPRP.drawSpots pi ⟨pi / 2, rotation⟩ fuel
      = some ((List.range 6).map (fun m =>
          { i := m, r := 446 - m * 60,
            spots := (List.range (([11, 10, 8, 6, 5, 3] : List ℕ).getD m 0 + 1)).map
              (fun j => some (spotAngle pi (-pi / 2 + pi / 2 / 2)
                (SectorPRP.count.getD m 0) j)) })) := by
  apply SectorPRP.drawSpots_counts pi (pi / 2) rotation (by linarith) (by linarith)
    (by linarith) fuel hf
  · intro m hm j hj
    interval_cases m <;>
      simp only [List.getD_cons_zero, List.getD_cons_succ] at hj <;>
      obtain rfl : j = _ := Nat.succ_injective hj <;>
      simp only [SectorPRP.count, List.getD_cons_zero, List.getD_cons_succ, afterSpot,
        spotAngle, angleBound] <;>
      norm_num <;> linarith
  · intro m hm
    interval_cases m <;>
      simp only [SectorPRP.count, List.getD_cons_zero, List.getD_cons_succ, afterSpot,
        spotAngle, angleBound] <;>
      norm_num <;> linarith

theorem SectorPRP.drawSpots_narrow (pi rotation : ℚ) (h1 : 314 / 100 < pi)
    (h2 : pi < 315 / 100) (fuel : ℕ) (hf : 49 ≤ fuel) :
    SectorPRP.drawSpots pi ⟨167 / 200, rotation⟩ fuel
      = some ((List.range 6).map (fun m =>
          { i := m, r := 446 - m * 60,
            spots := (List.range (([6, 5, 4, 3, 2, 2] : List ℕ).getD m 0 + 1)).map
              (fun j => some (spotAngle pi (-pi / 2 + 167 / 200 / 2)
                (SectorPRP.count.getD m 0) j)) })) := by
  apply SectorPRP.drawSpots_counts pi (167 / 200) rotation (by linarith) (by norm_num)
    (by linarith) fuel hf
  · intro m hm j hj
    interval_cases m <;>
      simp only [List.getD_cons_zero, List.getD_cons_succ] at hj <;>
      obtain rfl : j = _ := Nat.succ_injective hj <;>
      simp only [SectorPRP.count, List.getD_cons_zero, List.getD_cons_succ, afterSpot,
        spotAngle, angleBound] <;>
      norm_num <;> linarith
  · intro m hm
    interval_cases m <;>
      simp only [SectorPRP.count, List.getD_cons_zero, List.getD_cons_succ, afterSpot,
        spotAngle, angleBound] <;>
      norm_num <;> linarith

theorem Math.PI_bounds : (314 / 100 : ℚ) < Math.PI ∧ Math.PI < 315 / 100 := by
  unfold Math.PI
  constructor <;> norm_num

/-! ## C11: the number of motifs of a quarter-turn sector -/

/-- C11 (as stated, refuted): the per-band counts of the table sum to 188, but for
a SectorPRP of arc `pi/2` (with `Math.PI` for `pi`) the draw loop emits 49 motifs. -/
theorem SectorPRP.quarter_sector_not_table_sum :
    SectorPRP.count.sum = 188
    ∧ (SectorPRP.drawSpots Math.PI ⟨Math.PI / 2, 0⟩ 50).map motifCount = some 49
    ∧ (SectorPRP.drawSpots Math.PI ⟨Math.PI / 2, 0⟩ 50).map motifCount ≠ some 188 := by
  have h := SectorPRP.drawSpots_quarter Math.PI 0 Math.PI_bounds.1 Math.PI_bounds.2 50
    (by norm_num)
  have hc : (SectorPRP.drawSpots Math.PI ⟨Math.PI / 2, 0⟩ 50).map motifCount = some 49 := by
    rw [h]
    simp [motifCount, List.range_succ]
  refine ⟨by norm_num [SectorPRP.count], hc, ?_⟩
  rw [hc]
  decide

/-- C11 (amended): for a SectorPRP of arc `pi/2` the draw loop visits the six bands
of radius 446, 386, 326, 266, 206 and 146, all above the inner radius 100, and emits
12, 11, 9, 7, 6 and 4 laser-spot motifs in them, 49 in all; the entries of the table
`[47, 41, 35, 28, 22, 15]` fix the angular spacing `2*pi/count[i]` of a band, not
the number of motifs of the sector. Stated for every `pi` between 3.14 and 3.15 and
every bound of at least 49 passes per loop. -/
theorem SectorPRP.quarter_sector_motifs (pi rotation : ℚ) (h1 : 314 / 100 < pi)
    (h2 : pi < 315 / 100) (fuel : ℕ) (hf : 49 ≤ fuel) :
    ∃ bands : List Band,
      SectorPRP.drawSpots pi ⟨pi / 2, rotation⟩ fuel = some bands
      ∧ bands.map (fun b => (b.i, b.r, b.spots.length))
          = [(0, 446, 12), (1, 386, 11), (2, 326, 9), (3, 266, 7), (4, 206, 6), (5, 146, 4)]
      ∧ (∀ b ∈ bands, 100 < b.r)
      ∧ motifCount bands = 49 := by
  refine ⟨_, SectorPRP.drawSpots_quarter pi rotation h1 h2 fuel hf, ?_, ?_, ?_⟩
  · simp [List.range_succ]
    norm_num
  · intro b hb
    simp only [List.mem_map, List.mem_range] at hb
    obtain ⟨m, hm, rfl⟩ := hb
    show (100 : ℚ) < 446 - m * 60
    interval_cases m <;> norm_num
  · simp [motifCount, List.range_succ]

/-- C11 (amended) at a concrete input: with `Math.PI` for `pi` and a bound of 50
passes, the quarter-turn sector gets 49 motifs in six bands. -/
theorem SectorPRP.quarter_sector_motifs_witness :
    (314 / 100 < Math.PI ∧ Math.PI < 315 / 100 ∧ 49 ≤ 50)
    ∧ ∃ bands : List Band,
      SectorPRP.drawSpots Math.PI ⟨Math.PI / 2, 0⟩ 50 = some bands
      ∧ bands.map (fun b => (b.i, b.r, b.spots.length))
          = [(0, 446, 12), (1, 386, 11), (2, 326, 9), (3, 266, 7), (4, 206, 6), (5, 146, 4)]
      ∧ (∀ b ∈ bands, 100 < b.r)
      ∧ motifCount bands = 49 :=
  ⟨⟨by norm_num [Math.PI], by norm_num [Math.PI], by decide⟩,
    SectorPRP.quarter_sector_motifs Math.PI 0 (by norm_num [Math.PI]) (by norm_num [Math.PI])
      50 (by decide)⟩

/-! ## C12: how far across the sector the motifs are placed -/

/-- C12 (as stated, refuted): with `Math.PI` for `pi`, the arc `0.835` is in the
declared range, and in the innermost band (index 5, radius 146, count 15) the draw
loop emits the motif number 2, whose offset `2 * 2*pi/15` from the starting edge of
the sector exceeds the arc. -/
theorem SectorPRP.motif_beyond_far_edge :
    (SectorPRP.arcRange Math.PI).includes (167 / 200)
    ∧ ∃ bands : List Band, SectorPRP.drawSpots Math.PI ⟨167 / 200, 0⟩ 50 = some bands
      ∧ ∃ b ∈ bands, b.i = 5 ∧ b.r = 146
        ∧ ∃ a : ℚ, some a ∈ b.spots
          ∧ a - startEdge Math.PI (167 / 200) = (2 : ℕ) * 2 * Math.PI / 15
          ∧ 167 / 200 < a - startEdge Math.PI (167 / 200) := by
  refine ⟨by norm_num [SectorPRP.arcRange, Range.includes, Math.PI], _,
    SectorPRP.drawSpots_narrow Math.PI 0 Math.PI_bounds.1 Math.PI_bounds.2 50 (by norm_num),
    ?_⟩
  refine ⟨_, List.mem_map.mpr ⟨5, List.mem_range.mpr (by norm_num), rfl⟩, rfl, by norm_num,
    spotAngle Math.PI (-Math.PI / 2 + 167 / 200 / 2) 15 2, ?_, ?_, ?_⟩
  · exact List.mem_map.mpr ⟨2, List.mem_range.mpr (by decide), rfl⟩
  · simp only [spotAngle, startEdge]
    ring
  · simp only [spotAngle, startEdge, Math.PI]
    norm_num

/-- C12 (amended): in SectorPRP.draw, for every arc in the declared range
`[pi/6, 2*pi]` and every band, every emitted motif has a polar angle offset
`j * 2*pi/count[i]` from the starting edge of the sector that is non-negative; the
offset is at most the arc in the five outer bands (radius 446 to 206), and less than
`arc + (2*pi/15 - 60/146)` in the innermost band (radius 146, count 15), where a motif
can lie beyond the far edge. Stated for every `pi` between 3.14 and 3.15 and every
bound of at least 49 passes per loop. -/
theorem SectorPRP.motif_offsets (pi arc rotation : ℚ) (h1 : 314 / 100 < pi)
    (h2 : pi < 315 / 100) (harc : (SectorPRP.arcRange pi).includes arc) (fuel : ℕ)
    (hf : 49 ≤ fuel) :
    ∃ bands : List Band,
      SectorPRP.drawSpots pi ⟨arc, rotation⟩ fuel = some bands
      ∧ bands.map (fun b => (b.i, b.r))
          = [(0, 446), (1, 386), (2, 326), (3, 266), (4, 206), (5, 146)]
      ∧ ∀ b ∈ bands, ∀ x ∈ b.spots, ∃ (a : ℚ) (j : ℕ),
          x = some a
          ∧ a - startEdge pi arc = j * 2 * pi / SectorPRP.count.getD b.i 0
          ∧ 0 ≤ a - startEdge pi arc
          ∧ (b.i < 5 → a - startEdge pi arc ≤ arc)
          ∧ (b.i = 5 → a - startEdge pi arc < arc + (2 * pi / 15 - 60 / 146)) := by
  obtain ⟨ha1, ha2⟩ := harc
  simp only [SectorPRP.arcRange] at ha1 ha2
  have hpi : 0 < pi := by linarith
  have harc0 : 0 < arc := by linarith
  obtain ⟨K, hres, hK⟩ :=
    SectorPRP.drawSpots_spec pi arc rotation hpi harc0 (by linarith) fuel hf
  refine ⟨_, hres, ?_, ?_⟩
  · simp [List.range_succ]
    norm_num
  · intro b hb x hx
    simp only [List.mem_map, List.mem_range] at hb
    obtain ⟨m, hm, rfl⟩ := hb
    simp only [List.mem_map, List.mem_range] at hx
    obtain ⟨j, hj, rfl⟩ := hx
    obtain ⟨-, hbefore, -⟩ := hK m hm
    have hoff : spotAngle pi (-pi / 2 + arc / 2) (SectorPRP.count.getD m 0) j - startEdge pi arc
        = j * 2 * pi / SectorPRP.count.getD m 0 := by
      simp only [spotAngle, startEdge]
      ring
    have hcpos : 0 < SectorPRP.count.getD m 0 := by
      interval_cases m <;>
        simp only [SectorPRP.count, List.getD_cons_zero, List.getD_cons_succ] <;> norm_num
    have hnonneg : (0 : ℚ) ≤ j * 2 * pi / SectorPRP.count.getD m 0 := by positivity
    refine ⟨_, j, rfl, hoff, by rw [hoff]; exact hnonneg, ?_, ?_⟩
    · intro hm5
      rw [hoff]
      cases j with
      | zero => simp only [Nat.cast_zero, zero_mul, zero_div]; exact harc0.le
      | succ j =>
        have hb := hbefore j (by omega)
        have hm5' : m < 5 := hm5
        interval_cases m <;>
          simp only [SectorPRP.count, List.getD_cons_zero, List.getD_cons_succ, afterSpot,
            spotAngle, angleBound] at hb ⊢ <;>
          push_cast at hb ⊢ <;> norm_num at hb ⊢ <;> linarith
    · intro hm5
      rw [hoff]
      have hm5' : m = 5 := hm5
      subst hm5'
      cases j with
      | zero =>
        simp only [Nat.cast_zero, zero_mul, zero_div]
        linarith
      | succ j =>
        have hb := hbefore j (by omega)
        simp only [SectorPRP.count, List.getD_cons_zero, List.getD_cons_succ, afterSpot,
          spotAngle, angleBound] at hb ⊢
        push_cast at hb ⊢
        norm_num at hb ⊢
        linarith

/-- C12 (amended) at a concrete input: with `Math.PI` for `pi`, the quarter-turn arc
and a bound of 50 passes. -/
theorem SectorPRP.motif_offsets_witness :
    (314 / 100 < Math.PI ∧ Math.PI < 315 / 100
      ∧ (SectorPRP.arcRange Math.PI).includes (Math.PI / 2) ∧ 49 ≤ 50)
    ∧ ∃ bands : List Band,
      SectorPRP.drawSpots Math.PI ⟨Math.PI / 2, 0⟩ 50 = some bands
      ∧ bands.map (fun b => (b.i, b.r))
          = [(0, 446), (1, 386), (2, 326), (3, 266), (4, 206), (5, 146)]
      ∧ ∀ b ∈ bands, ∀ x ∈ b.spots, ∃ (a : ℚ) (j : ℕ),
          x = some a
          ∧ a - startEdge Math.PI (Math.PI / 2) = j * 2 * Math.PI / SectorPRP.count.getD b.i 0
          ∧ 0 ≤ a - startEdge Math.PI (Math.PI / 2)
          ∧ (b.i < 5 → a - startEdge Math.PI (Math.PI / 2) ≤ Math.PI / 2)
          ∧ (b.i = 5 →
              a - startEdge Math.PI (Math.PI / 2) < Math.PI / 2 + (2 * Math.PI / 15 - 60 / 146)) :=
  ⟨⟨by norm_num [Math.PI], by norm_num [Math.PI],
      by norm_num [SectorPRP.arcRange, Range.includes, Math.PI], by decide⟩,
    SectorPRP.motif_offsets Math.PI (Math.PI / 2) 0 (by norm_num [Math.PI])
      (by norm_num [Math.PI]) (by norm_num [SectorPRP.arcRange, Range.includes, Math.PI])
      50 (by decide)⟩

/-! ## C13: the type and the SNOMED code of a vein occlusion -/

/-- C13: for every arc, `type()` is one of `'central'`, `'hemispheric'` and
`'branch'`, with `'central'` iff `arc > 1.5*pi`, `'hemispheric'` iff
`0.8*pi < arc <= 1.5*pi` and `'branch'` iff `arc <= 0.8*pi`; `snomedCode()` returns
68478007, 232043000 and 24596005 respectively, and never an undefined result. -/
theorem RetinalVeinOcclusionPostPole.snomedCode_total (pi : ℚ) (hpi : 0 ≤ pi)
    (self : RetinalVeinOcclusionPostPole) :
    (self.type pi = "central" ↔ self.arc > 3 / 2 * pi)
    ∧ (self.type pi = "hemispheric" ↔ 4 / 5 * pi < self.arc ∧ self.arc ≤ 3 / 2 * pi)
    ∧ (self.type pi = "branch" ↔ self.arc ≤ 4 / 5 * pi)
    ∧ (self.type pi = "central" → self.snomedCode pi = some 68478007)
    ∧ (self.type pi = "hemispheric" → self.snomedCode pi = some 232043000)
    ∧ (self.type pi = "branch" → self.snomedCode pi = some 24596005)
    ∧ (self.type pi = "central" ∨ self.type pi = "hemispheric" ∨ self.type pi = "branch")
    ∧ self.snomedCode pi ≠ none := by
  have hcodes : (self.type pi = "central" → self.snomedCode pi = some 68478007)
      ∧ (self.type pi = "hemispheric" → self.snomedCode pi = some 232043000)
      ∧ (self.type pi = "branch" → self.snomedCode pi = some 24596005) := by
    refine ⟨fun h => ?_, fun h => ?_, fun h => ?_⟩ <;>
      simp only [RetinalVeinOcclusionPostPole.snomedCode, h] <;> decide
  obtain ⟨hc, hh, hb⟩ := hcodes
  by_cases c1 : self.arc > 3 / 2 * pi
  · have ht : self.type pi = "central" := by
      simp only [RetinalVeinOcclusionPostPole.type, c1, if_true]
    have c2 : ¬ self.arc ≤ 4 / 5 * pi := by
      intro h
      have : self.arc > 3 / 2 * pi := c1
      linarith
    refine ⟨?_, ?_, ?_, hc, hh, hb, Or.inl ht, ?_⟩
    · simp only [ht, c1]
    · rw [ht]
      exact ⟨fun h => absurd h (by decide), fun h => absurd c1 (not_lt.mpr h.2)⟩
    · rw [ht]
      exact ⟨fun h => absurd h (by decide), fun h => absurd h c2⟩
    · rw [hc ht]; simp
  · by_cases c2 : self.arc > 4 / 5 * pi
    · have ht : self.type pi = "hemispheric" := by
        simp only [RetinalVeinOcclusionPostPole.type, c1, c2, if_true, if_false]
      refine ⟨?_, ?_, ?_, hc, hh, hb, Or.inr (Or.inl ht), ?_⟩
      · rw [ht]
        exact ⟨fun h => absurd h (by decide), fun h => absurd h c1⟩
      · rw [ht]
        exact ⟨fun _ => ⟨c2, not_lt.mp c1⟩, fun _ => rfl⟩
      · rw [ht]
        exact ⟨fun h => absurd h (by decide), fun h => absurd c2 (not_lt.mpr h)⟩
      · rw [hh ht]; simp
    · have ht : self.type pi = "branch" := by
        simp only [RetinalVeinOcclusionPostPole.type, c1, c2, if_false]
      refine ⟨?_, ?_, ?_, hc, hh, hb, Or.inr (Or.inr ht), ?_⟩
      · rw [ht]
        exact ⟨fun h => absurd h (by decide), fun h => absurd h c1⟩
      · rw [ht]
        exact ⟨fun h => absurd h (by decide), fun h => absurd h.1 c2⟩
      · rw [ht]
        exact ⟨fun _ => not_lt.mp c2, fun _ => rfl⟩
      · rw [hb ht]; simp

/-- C13 at a concrete input: with `pi = 3` an arc of 3 lies in `(0.8*pi, 1.5*pi]`,
so the type is `'hemispheric'` and the code is 232043000. -/
theorem RetinalVeinOcclusionPostPole.snomedCode_total_witness :
    (0 : ℚ) ≤ 3
    ∧ (RetinalVeinOcclusionPostPole.type 3 ⟨-100, 3, 0⟩ = "hemispheric"
        ↔ 4 / 5 * 3 < (3 : ℚ) ∧ (3 : ℚ) ≤ 3 / 2 * 3)
    ∧ RetinalVeinOcclusionPostPole.snomedCode 3 ⟨-100, 3, 0⟩ ≠ none :=
  ⟨by decide,
    (RetinalVeinOcclusionPostPole.snomedCode_total 3 (by decide) ⟨-100, 3, 0⟩).2.1,
    (RetinalVeinOcclusionPostPole.snomedCode_total 3 (by decide) ⟨-100, 3, 0⟩).2.2.2.2.2.2.2⟩

/-! ## C14: the literals of the grade resolver and the named constants -/

/-- C14: for every grade value (legal or not, string or number) and every current
`apexY`, the `grade` resolver as written, with the literals `-306` and `-270`, returns
the same result as the resolver with those literals replaced by `-this.rcbo` and
`-this.riro`; the two constants are 306 and 270. -/
theorem AngleGradeEast.grade_literals_match_constants (a : ℚ) (v : Value) :
    (AngleGradeEast.withApexY a).dependentOfGrade v
      = (AngleGradeEast.withApexY a).dependentOfGradeNamed v
    ∧ (AngleGradeEast.withApexY a).dependentParameterValues "grade" v
      = some ((AngleGradeEast.withApexY a).dependentOfGradeNamed v)
    ∧ (-306 : ℚ) = -(AngleGradeEast.withApexY a).rcbo
    ∧ (-270 : ℚ) = -(AngleGradeEast.withApexY a).riro := by
  refine ⟨rfl, ?_, rfl, rfl⟩
  simp only [AngleGradeEast.dependentParameterValues,
    show ("grade" = "apexY") = False from by decide, if_false, if_true]
  rfl

/-! ## C15: derived values outside the legal list, and parameters without a rule -/

/-- C15 (as stated, refuted): `'5'` is not a legal grade and `'Maybe'` is not a legal
`seen` value, yet `dependentParameterValues('grade', '5')` and
`dependentParameterValues('seen', 'Maybe')` both return a value for `apexY`: the empty
string. -/
theorem AngleGradeEast.illegal_derived_value_returns_apexY :
    "5" ∉ AngleGradeEast.gradeList
    ∧ AngleGradeEast.apexYFor (-300) "grade" "5" = some (Value.str "")
    ∧ AngleGradeEast.apexYFor (-300) "grade" "5" ≠ none
    ∧ "Maybe" ∉ AngleGradeEast.seenList
    ∧ AngleGradeEast.apexYFor (-300) "seen" "Maybe" = some (Value.str "")
    ∧ AngleGradeEast.apexYFor (-300) "seen" "Maybe" ≠ none := by
  decide

/-- C15 (amended): for every string `v` not in `['4','3','2','1','0']`,
`AngleGradeEast.dependentParameterValues('grade', v)` returns no number for `apexY`:
the returned map holds only the empty string under `'apexY'` (likewise `'seen'` with
`v` not in `['Yes','No']`); ConjunctivalFlap `'method'` with `v` not in its list
returns an empty map; and for every parameter name the resolver has no rule for, the
returned map is empty. -/
theorem illegal_derived_value_result :
    (∀ (a : ℚ) (v : String), v ∉ AngleGradeEast.gradeList →
      (AngleGradeEast.withApexY a).dependentParameterValues "grade" (Value.str v)
        = some [("apexY", Value.str "")])
    ∧ (∀ (a : ℚ) (v : String), v ∉ AngleGradeEast.seenList →
      (AngleGradeEast.withApexY a).dependentParameterValues "seen" (Value.str v)
        = some [("apexY", Value.str "")])
    ∧ (∀ (a : ℚ) (v : String), v ∉ ConjunctivalFlap.methodList →
      (ConjunctivalFlap.withApexY a).dependentParameterValues "method" (Value.str v)
        = some [])
    ∧ (∀ (a : ℚ) (p : String) (v : Value), p ∉ ["apexY", "grade", "seen"] →
      (AngleGradeEast.withApexY a).dependentParameterValues p v = some [])
    ∧ (∀ (a : ℚ) (p : String) (v : Value), p ∉ ["apexY", "method"] →
      (ConjunctivalFlap.withApexY a).dependentParameterValues p v = some []) := by
  refine ⟨fun a v hv => ?_, fun a v hv => ?_, fun a v hv => ?_, fun a p v hp => ?_,
    fun a p v hp => ?_⟩
  · simp only [AngleGradeEast.gradeList, List.mem_cons, List.mem_singleton, List.mem_nil_iff,
      or_false, not_or] at hv
    obtain ⟨h4, h3, h2, h1, h0⟩ := hv
    rw [AngleGradeEast.dependentParameterValues_grade]
    simp only [h0, h1, h2, h3, h4, if_false]
  · simp only [AngleGradeEast.seenList, List.mem_cons, List.mem_singleton, List.mem_nil_iff,
      or_false, not_or] at hv
    obtain ⟨hy, hn⟩ := hv
    rw [AngleGradeEast.dependentParameterValues_seen]
    simp only [hy, hn, if_false]
  · simp only [ConjunctivalFlap.methodList, List.mem_cons, List.mem_singleton,
      List.mem_nil_iff, or_false, not_or] at hv
    obtain ⟨hf, hl⟩ := hv
    simp only [ConjunctivalFlap.dependentParameterValues, ConjunctivalFlap.dependentOfMethod,
      show ("method" = "apexY") = False from by decide, Value.str.injEq, hf, hl, if_false,
      if_true]
  · simp only [List.mem_cons, List.mem_singleton, List.mem_nil_iff, or_false, not_or] at hp
    obtain ⟨h1, h2, h3⟩ := hp
    simp only [AngleGradeEast.dependentParameterValues, h1, h2, h3, if_false]
  · simp only [List.mem_cons, List.mem_singleton, List.mem_nil_iff, or_false, not_or] at hp
    obtain ⟨h1, h2⟩ := hp
    simp only [ConjunctivalFlap.dependentParameterValues, h1, h2, if_false]

/-- C15 (amended) at a concrete input: the illegal grade `'5'`, requested at
`apexY = -300`, returns the map with the empty string under `'apexY'`. -/
theorem illegal_derived_value_result_witness :
    "5" ∉ AngleGradeEast.gradeList
    ∧ (AngleGradeEast.withApexY (-300)).dependentParameterValues "grade" (Value.str "5")
        = some [("apexY", Value.str "")] :=
  ⟨by decide, illegal_derived_value_result.1 (-300) "5" (by decide)⟩

/-! ## C16: the radii of the boundary arcs -/

/-- C16: for every `apexY` in the declared range, AngleGradeEast draws an outer arc
of radius `-apexY` in `[230, 470]`, strictly greater than the radius `rpu = 100` of
its inner arc, and RetinalVeinOcclusionPostPole draws an inner arc of radius `-apexY`
in `[30, 200]`, strictly smaller than the radius 420 of its outer arc; every radius
passed to `arc` is positive. -/
theorem boundary_radii_valid (pi a b arc rotation : ℚ)
    (ha : (AngleGradeEast.withApexY a).apexYRange.includes a)
    (hb : RetinalVeinOcclusionPostPole.apexYRange.includes b) :
    (∃ outer inner : ArcCall,
      (AngleGradeEast.withApexY a).boundaryArcs pi = [outer, inner]
      ∧ outer.radius = -a ∧ 230 ≤ outer.radius ∧ outer.radius ≤ 470
      ∧ inner.radius = 100 ∧ inner.radius < outer.radius)
    ∧ (∃ outer inner : ArcCall,
      RetinalVeinOcclusionPostPole.boundaryArcs pi ⟨b, arc, rotation⟩ = [outer, inner]
      ∧ inner.radius = -b ∧ 30 ≤ inner.radius ∧ inner.radius ≤ 200
      ∧ outer.radius = 420 ∧ inner.radius < outer.radius)
    ∧ (∀ c ∈ (AngleGradeEast.withApexY a).boundaryArcs pi, 0 < c.radius)
    ∧ (∀ c ∈ RetinalVeinOcclusionPostPole.boundaryArcs pi ⟨b, arc, rotation⟩,
        0 < c.radius) := by
  obtain ⟨ha1, ha2⟩ := ha
  obtain ⟨hb1, hb2⟩ := hb
  simp only [AngleGradeEast.apexYRange, AngleGradeEast.withApexY] at ha1 ha2
  simp only [RetinalVeinOcclusionPostPole.apexYRange] at hb1 hb2
  refine ⟨⟨_, _, rfl, rfl, ?_, ?_, rfl, ?_⟩, ⟨_, _, rfl, rfl, ?_, ?_, rfl, ?_⟩, ?_, ?_⟩
  · show (230 : ℚ) ≤ -a
    linarith
  · show -a ≤ (470 : ℚ)
    linarith
  · show (100 : ℚ) < -a
    linarith
  · show (30 : ℚ) ≤ -b
    linarith
  · show -b ≤ (200 : ℚ)
    linarith
  · show -b < (420 : ℚ)
    linarith
  · intro c hc
    simp only [AngleGradeEast.boundaryArcs, AngleGradeEast.withApexY, List.mem_cons,
      List.mem_singleton, List.mem_nil_iff, or_false] at hc
    rcases hc with rfl | rfl
    · show (0 : ℚ) < -a
      linarith
    · show (0 : ℚ) < 100
      norm_num
  · intro c hc
    simp only [RetinalVeinOcclusionPostPole.boundaryArcs, List.mem_cons,
      List.mem_singleton, List.mem_nil_iff, or_false] at hc
    rcases hc with rfl | rfl
    · show (0 : ℚ) < 420
      norm_num
    · show (0 : ℚ) < -b
      linarith

/-- C16 at a concrete input: `apexY = -300` for AngleGradeEast and `apexY = -100` for
RetinalVeinOcclusionPostPole are in the declared ranges, and all radii are positive. -/
theorem boundary_radii_valid_witness :
    (AngleGradeEast.withApexY (-300)).apexYRange.includes (-300)
    ∧ RetinalVeinOcclusionPostPole.apexYRange.includes (-100)
    ∧ (∀ c ∈ (AngleGradeEast.withApexY (-300)).boundaryArcs 3, 0 < c.radius)
    ∧ (∀ c ∈ RetinalVeinOcclusionPostPole.boundaryArcs 3 ⟨-100, 1, 0⟩, 0 < c.radius) :=
  ⟨by decide, by decide,
    (boundary_radii_valid 3 (-300) (-100) 1 0 (by decide) (by decide)).2.2⟩

/-! ## C17: the two derived parameters of AngleGradeEast agree -/

/-- C17: for every number `v`, `dependentParameterValues('apexY', v)` returns `seen`
equal to `'No'` exactly when it returns `grade` equal to `'0'`, and `seen` equal to
`'Yes'` exactly when the grade is one of `'1'` to `'4'`. -/
theorem AngleGradeEast.seen_agrees_with_grade (a v : ℚ) :
    ∃ g s : String,
      (AngleGradeEast.withApexY a).dependentParameterValues "apexY" (Value.num v)
        = some [("grade", Value.str g), ("seen", Value.str s)]
      ∧ (s = "No" ↔ g = "0")
      ∧ (s = "Yes" ↔ g ∈ ["1", "2", "3", "4"]) := by
  rw [AngleGradeEast.dependentParameterValues_apexY]
  refine ⟨_, _, rfl, ?_⟩
  by_cases c0 : 470 ≤ -v
  · simp only [c0, if_true]
    decide
  · simp only [c0, if_false]
    split_ifs <;> decide

/-! ## C18: the band loop and the per-band count table -/

theorem RetinalVeinOcclusionPostPole.drawSpots_bands (pi apexY arc rotation : ℚ)
    (hpi : 0 < pi) (harc : 0 < arc) (harc2 : arc ≤ 2 * pi) (fuel : ℕ) (hf : 28 ≤ fuel)
    (k : ℕ) (hk : k ≤ 6) (hin : ∀ m : ℕ, m < k → -apexY < 390 - m * 60)
    (hout : (390 : ℚ) - k * 60 ≤ -apexY) :
    ∃ K : ℕ → ℕ,
      RetinalVeinOcclusionPostPole.drawSpots pi ⟨apexY, arc, rotation⟩ fuel
        = some ((List.range k).map (fun m =>
            { i := m, r := 390 - m * 60,
              spots := (List.range (K m + 1)).map
                (fun j => some (spotAngle pi (-pi / 2 + arc / 2)
                  (RetinalVeinOcclusionPostPole.count.getD m 0) j)) })) := by
  have hC : ∀ m, m < k → RetinalVeinOcclusionPostPole.count[0 + m]?
      = some (RetinalVeinOcclusionPostPole.count.getD m 0) := by
    intro m hm
    have hm6 : m < 6 := by omega
    interval_cases m <;> rfl
  have hstop : ∀ m : ℕ, m < k →
      angleBound pi arc (-pi / 2 + arc / 2)
        ≤ afterSpot pi (-pi / 2 + arc / 2) 60 (390 - m * 60)
            (RetinalVeinOcclusionPostPole.count.getD m 0) 26 := by
    intro m hm
    have hm6 : m < 6 := by omega
    interval_cases m <;>
      simp only [RetinalVeinOcclusionPostPole.count, List.getD_cons_zero, List.getD_cons_succ,
        afterSpot, spotAngle, angleBound] <;> norm_num <;> linarith
  obtain ⟨K, h1, -⟩ := radiusLoop_spec pi arc (-pi / 2 + arc / 2) (-apexY) 60
    RetinalVeinOcclusionPostPole.count fuel k fuel 390 0 (by omega) hin hout 26 (by omega) harc
    (fun m => RetinalVeinOcclusionPostPole.count.getD m 0) hC hstop
  refine ⟨K, ?_⟩
  have e1 : (420 - 30 : ℚ) = 390 := by norm_num
  have e2 : (30 + 30 : ℚ) = 60 := by norm_num
  simp only [RetinalVeinOcclusionPostPole.drawSpots, e1, e2, h1, zero_add]

/-- C18: the radius loop of SectorPRP.draw visits exactly 6 bands, of radius 446
down to 146, and for every `apexY` in the declared range `[-200, -30]` the radius
loop of RetinalVeinOcclusionPostPole.draw visits between 4 and 6 bands; in both, the
band indices are 0, 1, 2, ... and every one is below 6, the length of `count`, and no
motif angle is `NaN`. Stated for every `pi > 0`, every arc in the declared range
`[pi/6, 2*pi]` and every bound of at least 49 passes per loop. -/
theorem band_index_within_table (pi arc rotation apexY arc' rotation' : ℚ) (hpi : 0 < pi)
    (harc : (SectorPRP.arcRange pi).includes arc)
    (harc' : (RetinalVeinOcclusionPostPole.arcRange pi).includes arc')
    (hy : RetinalVeinOcclusionPostPole.apexYRange.includes apexY)
    (fuel : ℕ) (hf : 49 ≤ fuel) :
    (∃ bands : List Band,
      SectorPRP.drawSpots pi ⟨arc, rotation⟩ fuel = some bands
      ∧ bands.map (fun b => (b.i, b.r))
          = [(0, 446), (1, 386), (2, 326), (3, 266), (4, 206), (5, 146)]
      ∧ (∀ b ∈ bands, b.i < SectorPRP.count.length)
      ∧ (∀ b ∈ bands, none ∉ b.spots))
    ∧ (∃ bands : List Band,
      RetinalVeinOcclusionPostPole.drawSpots pi ⟨apexY, arc', rotation'⟩ fuel = some bands
      ∧ 4 ≤ bands.length ∧ bands.length ≤ 6
      ∧ bands.map (fun b => b.i) = List.range bands.length
      ∧ (∀ b ∈ bands, b.i < RetinalVeinOcclusionPostPole.count.length)
      ∧ (∀ b ∈ bands, none ∉ b.spots)) := by
  obtain ⟨ha1, ha2⟩ := harc
  obtain ⟨hb1, hb2⟩ := harc'
  obtain ⟨hy1, hy2⟩ := hy
  simp only [SectorPRP.arcRange] at ha1 ha2
  simp only [RetinalVeinOcclusionPostPole.arcRange] at hb1 hb2
  simp only [RetinalVeinOcclusionPostPole.apexYRange] at hy1 hy2
  constructor
  · obtain ⟨K, hres, -⟩ :=
      SectorPRP.drawSpots_spec pi arc rotation hpi (by linarith) (by linarith) fuel hf
    refine ⟨_, hres, ?_, ?_, ?_⟩
    · simp [List.range_succ]
      norm_num
    · intro b hb
      simp only [List.mem_map, List.mem_range] at hb
      obtain ⟨m, hm, rfl⟩ := hb
      exact hm
    · intro b hb
      simp only [List.mem_map, List.mem_range] at hb
      obtain ⟨m, hm, rfl⟩ := hb
      simp
  · have hspec : ∀ k : ℕ, 4 ≤ k → k ≤ 6 → (∀ m : ℕ, m < k → -apexY < 390 - m * 60) →
        (390 : ℚ) - k * 60 ≤ -apexY →
        ∃ bands : List Band,
          RetinalVeinOcclusionPostPole.drawSpots pi ⟨apexY, arc', rotation'⟩ fuel = some bands
          ∧ 4 ≤ bands.length ∧ bands.length ≤ 6
          ∧ bands.map (fun b => b.i) = List.range bands.length
          ∧ (∀ b ∈ bands, b.i < RetinalVeinOcclusionPostPole.count.length)
          ∧ (∀ b ∈ bands, none ∉ b.spots) := by
      intro k hk4 hk6 hin hout
      obtain ⟨K, hres⟩ := RetinalVeinOcclusionPostPole.drawSpots_bands pi apexY arc' rotation'
        hpi (by linarith) (by linarith) fuel (by omega) k hk6 hin hout
      refine ⟨_, hres, by simpa using hk4, by simpa using hk6, ?_, ?_, ?_⟩
      · rw [List.map_map, List.length_map, List.length_range]
        exact List.map_id _
      · intro b hb
        simp only [List.mem_map, List.mem_range] at hb
        obtain ⟨m, hm, rfl⟩ := hb
        show m < RetinalVeinOcclusionPostPole.count.length
        simp only [RetinalVeinOcclusionPostPole.count, List.length_cons, List.length_nil]
        omega
      · intro b hb
        simp only [List.mem_map, List.mem_range] at hb
        obtain ⟨m, hm, rfl⟩ := hb
        simp
    by_cases c6 : -apexY < 90
    · refine hspec 6 (by norm_num) (by norm_num) ?_ (by norm_num; linarith)
      intro m hm
      interval_cases m <;> norm_num <;> linarith
    · by_cases c5 : -apexY < 150
      · refine hspec 5 (by norm_num) (by norm_num) ?_ (by norm_num; linarith)
        intro m hm
        interval_cases m <;> norm_num <;> linarith
      · refine hspec 4 (by norm_num) (by norm_num) ?_ (by norm_num; linarith)
        intro m hm
        interval_cases m <;> norm_num <;> linarith

/-- C18 at a concrete input: with `Math.PI` for `pi`, quarter-turn arcs, `apexY = -100`
and a bound of 50 passes, the vein-occlusion loop visits between 4 and 6 bands. -/
theorem band_index_within_table_witness :
    (0 < Math.PI ∧ (SectorPRP.arcRange Math.PI).includes (Math.PI / 2)
      ∧ (RetinalVeinOcclusionPostPole.arcRange Math.PI).includes (Math.PI / 2)
      ∧ RetinalVeinOcclusionPostPole.apexYRange.includes (-100) ∧ 49 ≤ 50)
    ∧ (∃ bands : List Band,
      RetinalVeinOcclusionPostPole.drawSpots Math.PI ⟨-100, Math.PI / 2, 0⟩ 50 = some bands
      ∧ 4 ≤ bands.length ∧ bands.length ≤ 6
      ∧ bands.map (fun b => b.i) = List.range bands.length
      ∧ (∀ b ∈ bands, b.i < RetinalVeinOcclusionPostPole.count.length)
      ∧ (∀ b ∈ bands, none ∉ b.spots)) :=
  ⟨⟨by norm_num [Math.PI], by norm_num [SectorPRP.arcRange, Range.includes, Math.PI],
      by norm_num [RetinalVeinOcclusionPostPole.arcRange, Range.includes, Math.PI],
      by decide, by decide⟩,
    (band_index_within_table Math.PI (Math.PI / 2) 0 (-100) (Math.PI / 2) 0
      (by norm_num [Math.PI]) (by norm_num [SectorPRP.arcRange, Range.includes, Math.PI])
      (by norm_num [RetinalVeinOcclusionPostPole.arcRange, Range.includes, Math.PI])
      (by decide) 50 (by decide)).2⟩

/-! ## C19: the description of a conjunctival flap and its derived method -/

/-- C19 (the code at the failing input): `apexY = -300` is in the declared range;
`description()` returns `'Fornix based flap'` there while
`dependentParameterValues('apexY', -300)` returns the method `'Limbus-based'`. The
two agree at `-400` and at `-200`; the thresholds are `-280` and `-380`. -/
theorem ConjunctivalFlap.description_disagrees_with_method :
    (ConjunctivalFlap.withApexY (-300)).apexYRange.includes (-300)
    ∧ (ConjunctivalFlap.withApexY (-300)).description = "Fornix based flap"
    ∧ (ConjunctivalFlap.withApexY (-300)).dependentParameterValues "apexY" (Value.num (-300))
        = some [("method", Value.str "Limbus-based")]
    ∧ (ConjunctivalFlap.withApexY (-400)).description = "Fornix based flap"
    ∧ ConjunctivalFlap.methodOf (-400) = some (Value.str "Fornix-based")
    ∧ (ConjunctivalFlap.withApexY (-200)).description = "Limbus based flap"
    ∧ ConjunctivalFlap.methodOf (-200) = some (Value.str "Limbus-based") := by
  decide

end ED
